import Mathlib

/-!
Verification of the Medical Triage Interpreter (lexer.py, triage_parser.py,
executor.py) via a shallow embedding in Lean 4.

The embedding mirrors the Python source:
* `Value` models the runtime values held in patient rows (the program uses
  `np.nan` for NULL; `pd.isna` detects it).
* A row (`Row`) models a Python dict as an insertion-ordered association
  list; `Executor.execute` converts the DataFrame to a list of such dicts.
* `ExecM` models the executor's effects: mutable state (the shared list of
  row dicts, the per-rule COUNT cache, plus an instrumentation counter of
  full-table scans) and Python exceptions, which leave the mutations made
  before the raise in place (hence `Except × State`, not `Except (× State)`).
* The evaluators `evalCond`, `evalCount`, `visitRule`, ... are direct
  transliterations of the corresponding `visit_*` methods of executor.py.
-/

set_option linter.unusedVariables false

namespace Triage

/-- Runtime values of the interpreter. `null` models `np.nan` (the program's
internal NULL); numbers model Python ints and floats as rationals. -/
inductive Value where
  | null
  | num (q : ℚ)
  | str (s : String)
  | bool (b : Bool)
deriving DecidableEq, Repr

/-- Model of `pd.isna` on the values our rows can hold. -/
def isna : Value → Bool
  | .null => true
  | _ => false

/-- A patient row: the Python dict, as an insertion-ordered association list. -/
abbrev Row := List (String × Value)

/-- Dict read, `row.get(name)` / `name in row`. -/
def rowGet? (row : Row) (name : String) : Option Value :=
  match row.find? (fun p => p.1 == name) with
  | some p => some p.2
  | none => none

/-- Dict write `row[name] = v`: update in place if the key exists (keeping its
position), otherwise append at the end. -/
def rowSet (row : Row) (name : String) (v : Value) : Row :=
  if (List.find? (fun p => p.1 == name) row).isSome then
    row.map (fun p => if p.1 == name then (name, v) else p)
  else
    row ++ [(name, v)]

/-- Comparison operators of the language (token types GT LT GTE LTE EQ NEQ). -/
inductive CmpOp where
  | gt | lt | gte | lte | eq | neq
deriving DecidableEq, Repr

/-- Runtime errors of the executor. `typeMismatch` models the `ExecutorError`
raised in `visit_ComparisonNode` when the underlying Python comparison raises
`TypeError`. -/
inductive ExecErr where
  | typeMismatch (l r : Value)
deriving DecidableEq, Repr

/-- Python string comparison: lexicographic on code points. -/
def strLtB : List Char → List Char → Bool
  | [], [] => false
  | [], _ :: _ => true
  | _ :: _, [] => false
  | a :: as, b :: bs => if a < b then true else if b < a then false else strLtB as bs

/-- Numeric view used by Python comparisons: bools are the ints 0 and 1. -/
def numView : Value → Option ℚ
  | .num q => some q
  | .bool b => some (if b then 1 else 0)
  | _ => none

/-- Python semantics of `l <op> r` for the non-null values of this
interpreter: numbers and bools compare numerically, strings compare
lexicographically, ordering between other mixes raises `TypeError`
(surfaced as `ExecutorError`, cf. executor.py lines 176-185), while
`==`/`!=` on mismatched types return False/True without error. -/
def pyCompare (op : CmpOp) (l r : Value) : Except ExecErr Bool :=
  match numView l, numView r with
  | some a, some b =>
    match op with
    | .gt => .ok (decide (b < a))
    | .lt => .ok (decide (a < b))
    | .gte => .ok (decide (b ≤ a))
    | .lte => .ok (decide (a ≤ b))
    | .eq => .ok (decide (a = b))
    | .neq => .ok (decide (a ≠ b))
  | _, _ =>
    match l, r with
    | .str a, .str b =>
      match op with
      | .gt => .ok (strLtB b.data a.data)
      | .lt => .ok (strLtB a.data b.data)
      | .gte => .ok (!strLtB a.data b.data)
      | .lte => .ok (!strLtB b.data a.data)
      | .eq => .ok (a == b)
      | .neq => .ok (!(a == b))
    | _, _ =>
      match op with
      | .eq => .ok false
      | .neq => .ok true
      | _ => .error (.typeMismatch l r)

/-- Right-hand side of a comparison: a `ValueNode` (literal; a NULL token
already denotes the value `null`, cf. `visit_ValueNode`) or an
`IdentifierNode`. -/
inductive RValue where
  | value (v : Value)
  | ident (name : String)
deriving DecidableEq, Repr

/-- Condition ASTs the parser can build: `BinaryOpNode` with AND/OR,
`UnaryOpNode` with NOT, `ComparisonNode`, `IsNullNode`. -/
inductive Cond where
  | and (l r : Cond)
  | or (l r : Cond)
  | not (c : Cond)
  | cmp (name : String) (op : CmpOp) (rhs : RValue)
  | isNull (name : String) (isNot : Bool)
deriving DecidableEq, Repr

/-- Value of a `SET` action: a literal or a `CountNode`. The `cid` field
models the Python object identity `id(node.condition)` used as the COUNT
cache key; the parser hands out a fresh `cid` per parsed `COUNT`, which is
exactly the distinctness guarantee object identity provides. -/
inductive SetValue where
  | lit (v : Value)
  | count (cid : Nat) (cond : Cond)
deriving DecidableEq, Repr

mutual

/-- An action in a THEN/ELSE block: `SetActionNode` or a nested `RuleNode`. -/
inductive Action where
  | set (name : String) (v : SetValue)
  | nested (r : Rule)

/-- A `RuleNode`: condition, THEN actions, optional ELSE actions. -/
inductive Rule where
  | mk (cond : Cond) (thenA : List Action) (elseA : Option (List Action))

end

/-- Executor state: the shared list of row dicts (`results` aka
`self.all_rows`), the per-rule COUNT cache, and an instrumentation counter
that increments once per full-table scan performed by `visit_CountNode`. -/
structure ExecState where
  rows : List Row
  cache : List (Nat × Nat)
  scans : Nat
deriving DecidableEq, Repr

/-- Effect type of the executor: state plus Python exceptions. An exception
carries the state as mutated so far (Python mutations persist through a
raise). -/
def ExecM (α : Type) := ExecState → Except ExecErr α × ExecState

/-- Model of `visit_IdentifierNode`: read a field of row `i`; an absent name
is first inserted bound to null, then read back. -/
def evalIdent (name : String) (i : Nat) : ExecM Value := fun s =>
  match s.rows.get? i with
  | none => (.ok .null, s)
  | some row =>
    match rowGet? row name with
    | some v => (.ok v, s)
    | none => (.ok .null, { s with rows := s.rows.set i (row ++ [(name, .null)]) })

/-- Model of visiting the right side of a comparison: `visit_ValueNode` or
`visit_IdentifierNode`. -/
def evalRValue : RValue → Nat → ExecM Value
  | .value v, _ => fun s => (.ok v, s)
  | .ident name, i => evalIdent name i

/-- Model of condition evaluation: `visit_BinaryOpNode` (short-circuit
AND/OR), `visit_UnaryOpNode` (NOT), `visit_ComparisonNode` (null operands
give False; otherwise Python comparison), `visit_IsNullNode`. -/
def evalCond : Cond → Nat → ExecM Bool
  | .and l r, i => fun s =>
    match evalCond l i s with
    | (.error e, s1) => (.error e, s1)
    | (.ok lv, s1) =>
      if !lv then (.ok false, s1)
      else
        match evalCond r i s1 with
        | (.error e, s2) => (.error e, s2)
        | (.ok rv, s2) => (.ok (lv && rv), s2)
  | .or l r, i => fun s =>
    match evalCond l i s with
    | (.error e, s1) => (.error e, s1)
    | (.ok lv, s1) =>
      if lv then (.ok true, s1)
      else
        match evalCond r i s1 with
        | (.error e, s2) => (.error e, s2)
        | (.ok rv, s2) => (.ok (lv || rv), s2)
  | .not c, i => fun s =>
    match evalCond c i s with
    | (.error e, s1) => (.error e, s1)
    | (.ok v, s1) => (.ok (!v), s1)
  | .cmp name op rhs, i => fun s =>
    match evalIdent name i s with
    | (.error e, s1) => (.error e, s1)
    | (.ok lv, s1) =>
      match evalRValue rhs i s1 with
      | (.error e, s2) => (.error e, s2)
      | (.ok rv, s2) =>
        if isna lv || isna rv then (.ok false, s2)
        else
          match pyCompare op lv rv with
          | .ok b => (.ok b, s2)
          | .error e => (.error e, s2)
  | .isNull name isNot, i => fun s =>
    match evalIdent name i s with
    | (.error e, s1) => (.error e, s1)
    | (.ok v, s1) => (.ok (if isNot then !(isna v) else isna v), s1)

/-- COUNT cache lookup by condition identity. -/
def cacheGet? (cache : List (Nat × Nat)) (k : Nat) : Option Nat :=
  match cache.find? (fun p => p.1 == k) with
  | some p => some p.2
  | none => none

/-- The row loop of `visit_CountNode`: evaluate the condition on every row of
the table; a row whose evaluation raises is skipped (mutations made before
the raise persist). -/
def countLoop (c : Cond) : List Nat → Nat → ExecState → Nat × ExecState
  | [], acc, s => (acc, s)
  | j :: rest, acc, s =>
    match evalCond c j s with
    | (.ok b, s1) => countLoop c rest (if b then acc + 1 else acc) s1
    | (.error _, s1) => countLoop c rest acc s1

/-- Model of `visit_CountNode`: cached result if the condition identity is in
the cache, otherwise one full-table scan whose result is cached. The `i`
(context row) is unused, as in the source. -/
def evalCount (cid : Nat) (c : Cond) (i : Nat) : ExecM Value := fun s =>
  match cacheGet? s.cache cid with
  | some n => (.ok (.num n), s)
  | none =>
    let s1 : ExecState := { s with scans := s.scans + 1 }
    let r := countLoop c (List.range s1.rows.length) 0 s1
    (.ok (.num r.1), { r.2 with cache := (cid, r.1) :: r.2.cache })

mutual

/-- Model of `visit_RuleNode`: evaluate the condition, run the THEN actions
if truthy, else the ELSE actions when present; returns True. -/
def visitRule : Rule → Nat → ExecM Bool
  | .mk c thenA elseA, i => fun s =>
    match evalCond c i s with
    | (.error e, s1) => (.error e, s1)
    | (.ok b, s1) =>
      if b then
        match visitActions thenA i s1 with
        | (.error e, s2) => (.error e, s2)
        | (.ok _, s2) => (.ok true, s2)
      else
        match elseA with
        | some acts =>
          match visitActions acts i s1 with
          | (.error e, s2) => (.error e, s2)
          | (.ok _, s2) => (.ok true, s2)
        | none => (.ok true, s1)
termination_by r _ => sizeOf r

/-- Sequentially visit a block of actions (the `for action_node in ...` loops
of `visit_RuleNode`). -/
def visitActions : List Action → Nat → ExecM Unit
  | [], _ => fun s => (.ok (), s)
  | a :: rest, i => fun s =>
    match visitAction a i s with
    | (.error e, s1) => (.error e, s1)
    | (.ok _, s1) => visitActions rest i s1
termination_by acts _ => sizeOf acts

/-- Model of `visit_SetActionNode` (evaluate the value, assign into row `i`
without reading the target identifier) and of a nested rule as action. -/
def visitAction : Action → Nat → ExecM Unit
  | .set name v, i => fun s =>
    match (match v with
           | .lit l => ((.ok l : Except ExecErr Value), s)
           | .count cid c => evalCount cid c i s) with
    | (.error e, s1) => (.error e, s1)
    | (.ok nv, s1) =>
      match s1.rows.get? i with
      | none => (.ok (), s1)
      | some row => (.ok (), { s1 with rows := s1.rows.set i (rowSet row name nv) })
  | .nested r, i => fun s =>
    match visitRule r i s with
    | (.error e, s1) => (.error e, s1)
    | (.ok _, s1) => (.ok (), s1)
termination_by a _ => sizeOf a

end

/-- The warning printed by `execute` when a row's evaluation raises: the
row's `Patient ID` (or "Unknown") together with the error. -/
def mkWarning (s : ExecState) (i : Nat) (e : ExecErr) : Value × ExecErr :=
  match s.rows.get? i with
  | none => (.str "Unknown", e)
  | some row =>
    match rowGet? row "Patient ID" with
    | some v => (v, e)
    | none => (.str "Unknown", e)

/-- The inner loop of `execute`: one rule over all rows; a raising row is
reported as a warning and evaluation continues with the next row. -/
def runRuleRows (ru : Rule) : List Nat → ExecState → List (Value × ExecErr) × ExecState
  | [], s => ([], s)
  | i :: rest, s =>
    match visitRule ru i s with
    | (.ok _, s1) => runRuleRows ru rest s1
    | (.error e, s1) =>
      let w := mkWarning s1 i e
      let r := runRuleRows ru rest s1
      (w :: r.1, r.2)

/-- The outer loop of `execute`: for each rule, reset the COUNT cache, then
run the rule over every row. -/
def execScript : List Rule → ExecState → List (Value × ExecErr) × ExecState
  | [], s => ([], s)
  | ru :: rest, s =>
    let s0 : ExecState := { s with cache := [] }
    let r1 := runRuleRows ru (List.range s0.rows.length) s0
    let r2 := execScript rest r1.2
    (r1.1 ++ r2.1, r2.2)

/-- Model of `Executor.execute`: run the whole script on the table, returning
the final rows and the runtime warnings in order. -/
def execute (rules : List Rule) (rows : List Row) : List Row × List (Value × ExecErr) :=
  let r := execScript rules { rows := rows, cache := [], scans := 0 }
  (r.2.rows, r.1)

/-! ### Parser (triage_parser.py) -/

/-- Token types of lexer.py's `TokenType` enum. -/
inductive TokType where
  | IF | THEN | ELSE | SET | AND | OR | NOT | IS | NULL | COUNT | WHERE
  | NUMBER | STRING | BOOLEAN | IDENTIFIER
  | GT | LT | GTE | LTE | EQ | NEQ | ASSIGN
  | LPAREN | RPAREN | NEWLINE | EOF
deriving DecidableEq, Repr

/-- Token payloads: numbers (Python int/float, as rationals), strings
(string literals, identifier names, keyword spellings), booleans, or none
(the EOF token). -/
inductive TokVal where
  | none
  | num (q : ℚ)
  | str (s : String)
  | bool (b : Bool)
deriving DecidableEq, Repr

/-- A lexer token with its position. -/
structure Token where
  type : TokType
  value : TokVal
  line : Nat
  col : Nat
deriving DecidableEq, Repr

/-- Shorthand used by concrete examples: a token at position 1:1. -/
def tok (tt : TokType) (v : TokVal) : Token := ⟨tt, v, 1, 1⟩

/-- Parser state: the token list and current position (`self.pos` /
`self.current_token`), plus a counter handing out fresh identities for the
condition object of each parsed `COUNT` (modelling Python's `id(...)`,
whose only relevant property is distinctness across parsed nodes). -/
structure PState where
  tokens : List Token
  pos : Nat
  nextId : Nat
deriving DecidableEq, Repr

/-- The current token; `none` models `self.current_token = None` past the
end of the list. -/
def curTok (s : PState) : Option Token := s.tokens.get? s.pos

/-- Type of the current token, when there is one. -/
def curTokType (s : PState) : Option TokType := (curTok s).map (fun t => t.type)

/-- Model of `Parser.advance`. -/
def advanceP (s : PState) : PState := { s with pos := s.pos + 1 }

/-- Parser-level failures. `expected`, `expectedValueAfterOp`,
`expectedValueInSet`, `expectedAction`, `unexpectedTok`, `emptyScript` and
`emptyTokens` model the `ParserError`s of the source; `noneType` models the
`AttributeError` Python raises on reading `.type` of `None`; `fuel` is a
modelling artifact, never reached when the fuel exceeds the work left. -/
inductive PErr where
  | expected (want got : TokType)
  | unexpectedTok (t : TokType)
  | expectedValueAfterOp
  | expectedValueInSet (got : TokType)
  | expectedAction
  | emptyScript
  | emptyTokens
  | noneType
  | fuel
deriving DecidableEq, Repr

/-- Model of `Parser.consume`. -/
def consume (tt : TokType) (s : PState) : Except PErr (Token × PState) :=
  match curTok s with
  | none => .error .noneType
  | some t => if t.type = tt then .ok (t, advanceP s) else .error (.expected tt t.type)

/-- Fuelled body of the `while self.current_token.type == NEWLINE: advance`
loops, counting how many newlines were skipped. -/
def skipNLF : Nat → PState → Except PErr (Nat × PState)
  | 0, _ => .error .fuel
  | f + 1, s =>
    match curTok s with
    | none => .error .noneType
    | some t =>
      if t.type = .NEWLINE then
        match skipNLF f (advanceP s) with
        | .ok (n, s2) => .ok (n + 1, s2)
        | .error e => .error e
      else .ok (0, s)

/-- The newline-skipping loops of the parser; the fuel covers the whole
remaining token list, so it never runs out before the loop's own exit. -/
def skipNL (s : PState) : Except PErr (Nat × PState) :=
  skipNLF (s.tokens.length + 1 - s.pos) s

/-- Identifier / string payload of a token (the lexer stores a string there
for IDENTIFIER tokens). -/
def tokStr : TokVal → String
  | .str s => s
  | _ => ""

/-- The literal value a `ValueNode` built from this token denotes at run
time: `visit_ValueNode` maps a NULL token to `np.nan` and otherwise returns
the token's value. -/
def tokLit (t : Token) : Value :=
  match t.type, t.value with
  | .NULL, _ => .null
  | _, .num q => .num q
  | _, .str s => .str s
  | _, .bool b => .bool b
  | _, .none => .null

/-- The comparison-operator token types of `parse_atom`. -/
def isCmpOp : TokType → Bool
  | .GT | .LT | .GTE | .LTE | .EQ | .NEQ => true
  | _ => false

/-- The `CmpOp` a comparison-operator token denotes. -/
def cmpOfTok : TokType → CmpOp
  | .GT => .gt
  | .LT => .lt
  | .GTE => .gte
  | .LTE => .lte
  | .EQ => .eq
  | _ => .neq

mutual

/-- Model of `Parser.parse_atom`: a parenthesized condition, an
`IS [NOT] NULL` test, or a comparison whose right side is a NUMBER, STRING,
BOOLEAN or IDENTIFIER token (the literal NULL is not among the accepted
right-hand sides). -/
def parseAtom : Nat → PState → Except PErr (Cond × PState)
  | 0, _ => .error .fuel
  | f + 1, s =>
    match curTok s with
    | none => .error .noneType
    | some t =>
      if t.type = .LPAREN then
        match parseCondition f (advanceP s) with
        | .error e => .error e
        | .ok (c, s1) =>
          match consume .RPAREN s1 with
          | .error e => .error e
          | .ok (_, s2) => .ok (c, s2)
      else if t.type = .IDENTIFIER then
        match curTok (advanceP s) with
        | none => .error .noneType
        | some t1 =>
          if t1.type = .IS then
            match curTok (advanceP (advanceP s)) with
            | none => .error .noneType
            | some t2 =>
              if t2.type = .NOT then
                match consume .NULL (advanceP (advanceP (advanceP s))) with
                | .error e => .error e
                | .ok (_, s3) => .ok (.isNull (tokStr t.value) true, s3)
              else
                match consume .NULL (advanceP (advanceP s)) with
                | .error e => .error e
                | .ok (_, s3) => .ok (.isNull (tokStr t.value) false, s3)
          else if isCmpOp t1.type then
            match curTok (advanceP (advanceP s)) with
            | none => .error .noneType
            | some t2 =>
              if t2.type = .NUMBER ∨ t2.type = .STRING ∨ t2.type = .BOOLEAN ∨
                  t2.type = .IDENTIFIER then
                .ok (.cmp (tokStr t.value) (cmpOfTok t1.type)
                      (if t2.type = .IDENTIFIER then .ident (tokStr t2.value)
                       else .value (tokLit t2)),
                  advanceP (advanceP (advanceP s)))
              else .error .expectedValueAfterOp
          else .error (.unexpectedTok t1.type)
      else .error (.unexpectedTok t.type)

/-- Model of `Parser.parse_expression`: an optional `NOT` prefix on an atom. -/
def parseExpression : Nat → PState → Except PErr (Cond × PState)
  | 0, _ => .error .fuel
  | f + 1, s =>
    match curTok s with
    | none => .error .noneType
    | some t =>
      if t.type = .NOT then
        match parseAtom f (advanceP s) with
        | .error e => .error e
        | .ok (c, s1) => .ok (.not c, s1)
      else
        match parseAtom f s with
        | .error e => .error e
        | .ok (c, s1) => .ok (c, s1)

/-- The single shared `while self.current_token.type in (AND, OR)` loop of
`parse_condition`: left-associative, AND and OR at the same level. -/
def condLoop : Nat → Cond → PState → Except PErr (Cond × PState)
  | 0, _, _ => .error .fuel
  | f + 1, node, s =>
    match curTok s with
    | none => .error .noneType
    | some t =>
      if t.type = .AND ∨ t.type = .OR then
        match parseExpression f (advanceP s) with
        | .error e => .error e
        | .ok (right, s1) =>
          condLoop f (if t.type = .AND then .and node right else .or node right) s1
      else .ok (node, s)

/-- Model of `Parser.parse_condition`. -/
def parseCondition : Nat → PState → Except PErr (Cond × PState)
  | 0, _ => .error .fuel
  | f + 1, s =>
    match parseExpression f s with
    | .error e => .error e
    | .ok (c, s1) => condLoop f c s1

end

/-- Model of `Parser.parse_count`: `COUNT WHERE condition`, handing the new
node's condition a fresh identity. -/
def parseCount (f : Nat) (s : PState) : Except PErr (SetValue × PState) :=
  match consume .COUNT s with
  | .error e => .error e
  | .ok (_, s1) =>
    match consume .WHERE s1 with
    | .error e => .error e
    | .ok (_, s2) =>
      match parseCondition f s2 with
      | .error e => .error e
      | .ok (c, s3) => .ok (.count s3.nextId c, { s3 with nextId := s3.nextId + 1 })

/-- Model of `Parser.parse_action`: `SET IDENTIFIER = value` where the value
is a COUNT or a STRING, NUMBER, BOOLEAN or NULL literal. -/
def parseAction (f : Nat) (s : PState) : Except PErr (Action × PState) :=
  match consume .SET s with
  | .error e => .error e
  | .ok (_, s1) =>
    match consume .IDENTIFIER s1 with
    | .error e => .error e
    | .ok (idTok, s2) =>
      match consume .ASSIGN s2 with
      | .error e => .error e
      | .ok (_, s3) =>
        match curTok s3 with
        | none => .error .noneType
        | some t =>
          if t.type = .COUNT then
            match parseCount f s3 with
            | .error e => .error e
            | .ok (v, s4) => .ok (.set (tokStr idTok.value) v, s4)
          else if t.type = .STRING ∨ t.type = .NUMBER ∨ t.type = .BOOLEAN ∨
              t.type = .NULL then
            .ok (.set (tokStr idTok.value) (.lit (tokLit t)), advanceP s3)
          else .error (.expectedValueInSet t.type)

mutual

/-- Model of `Parser.parse_rule`: `IF condition THEN actions [ELSE actions]`.
The THEN and ELSE action loops of the source are line-for-line identical;
both are `actionLoop`. -/
def parseRule : Nat → Bool → PState → Except PErr (Rule × PState)
  | 0, _, _ => .error .fuel
  | f + 1, isNested, s =>
    match consume .IF s with
    | .error e => .error e
    | .ok (_, s1) =>
      match parseCondition f s1 with
      | .error e => .error e
      | .ok (cond, s2) =>
        match consume .THEN s2 with
        | .error e => .error e
        | .ok (_, s3) =>
          match skipNL s3 with
          | .error e => .error e
          | .ok (_, s4) =>
            match actionLoop f isNested [] s4 with
            | .error e => .error e
            | .ok (thenA, s5) =>
              if thenA.isEmpty then .error .expectedAction
              else
                match curTok s5 with
                | none => .error .noneType
                | some t =>
                  if t.type = .ELSE then
                    match skipNL (advanceP s5) with
                    | .error e => .error e
                    | .ok (_, s6) =>
                      match actionLoop f isNested [] s6 with
                      | .error e => .error e
                      | .ok (elseA, s7) =>
                        if elseA.isEmpty then .error .expectedAction
                        else .ok (.mk cond thenA (some elseA), s7)
                  else .ok (.mk cond thenA none, s5)

/-- The action loop of `parse_rule`: consume SET actions and nested IF
rules; for a top-level rule (`isNested = false`) a run of two or more
newlines followed by an IF breaks the loop, leaving the IF for the next
top-level rule. -/
def actionLoop : Nat → Bool → List Action → PState → Except PErr (List Action × PState)
  | 0, _, _, _ => .error .fuel
  | f + 1, isNested, acc, s =>
    match curTok s with
    | none => .error .noneType
    | some t =>
      if t.type = .SET then
        match parseAction f s with
        | .error e => .error e
        | .ok (a, s1) =>
          match skipNL s1 with
          | .error e => .error e
          | .ok (n, s2) =>
            if isNested = false ∧ 1 < n ∧ curTokType s2 = some .IF then
              .ok (acc ++ [a], s2)
            else actionLoop f isNested (acc ++ [a]) s2
      else if t.type = .IF then
        match parseRule f true s with
        | .error e => .error e
        | .ok (r, s1) =>
          match skipNL s1 with
          | .error e => .error e
          | .ok (n, s2) =>
            if isNested = false ∧ 1 < n ∧ curTokType s2 = some .IF then
              .ok (acc ++ [.nested r], s2)
            else actionLoop f isNested (acc ++ [.nested r]) s2
      else .ok (acc, s)

end

/-- The rule loop of `Parser.parse`: parse rules until EOF, skipping the
newlines between them. -/
def ruleLoopP : Nat → List Rule → PState → Except PErr (List Rule × PState)
  | 0, _, _ => .error .fuel
  | f + 1, acc, s =>
    match curTok s with
    | none => .error .noneType
    | some t =>
      if t.type = .EOF then .ok (acc, s)
      else
        match parseRule f false s with
        | .error e => .error e
        | .ok (r, s1) =>
          match skipNL s1 with
          | .error e => .error e
          | .ok (_, s2) => ruleLoopP f (acc ++ [r]) s2

/-- Model of `Parser.__init__` plus `Parser.parse`: reject an empty token
list, skip leading newlines, parse rules until EOF, and reject an empty
rule list. -/
def parseScript (f : Nat) (tokens : List Token) : Except PErr (List Rule) :=
  if tokens = [] then .error .emptyTokens
  else
    match skipNL { tokens := tokens, pos := 0, nextId := 0 } with
    | .error e => .error e
    | .ok (_, s1) =>
      match ruleLoopP f [] s1 with
      | .error e => .error e
      | .ok (rules, _) => if rules.isEmpty then .error .emptyScript else .ok rules

/-! ### Lexer (lexer.py) -/

/-- Lexer errors (`LexerError`), with the line/column they carry. `fuel` is
a modelling artifact, never reached for fuel larger than the text. -/
inductive LErr where
  | invalidNumber (s : String) (line col : Nat)
  | unterminated (line col : Nat)
  | invalidIdent (s : String) (line col : Nat)
  | invalidBang (line col : Nat)
  | invalidChar (c : Char) (line col : Nat)
  | fuel
deriving DecidableEq, Repr

/-- Lexer state: the remaining text (its head is `self.current_char`) and
the position counters, initialised to line 1, column 1. -/
structure LState where
  text : List Char
  line : Nat
  col : Nat
deriving DecidableEq, Repr

/-- A single-quote character, written by code so the file avoids quote
literals. -/
def sq : Char := Char.ofNat 39

/-- Model of `Lexer.advance`, including its column quirk: the column is
only incremented when the new position is still inside the text. -/
def ladv (s : LState) : LState :=
  match s.text with
  | [] => s
  | c :: rest =>
    let l := if c = '\n' then s.line + 1 else s.line
    let c0 := if c = '\n' then 0 else s.col
    { text := rest, line := l, col := if rest.isEmpty then c0 else c0 + 1 }

/-- The inner comment loop of `skip_whitespace`: advance until a newline or
the end of the text, leaving the newline unconsumed. -/
def skipComment : Nat → LState → LState
  | 0, s => s
  | f + 1, s =>
    match s.text with
    | [] => s
    | c :: _ => if c = '\n' then s else skipComment f (ladv s)

/-- Model of `Lexer.skip_whitespace`: skip spaces, tabs, carriage returns
and `#` comments, but not newlines. -/
def skipWs : Nat → LState → LState
  | 0, s => s
  | f + 1, s =>
    match s.text with
    | [] => s
    | c :: _ =>
      if c = ' ' ∨ c = '\t' ∨ c = '\r' then skipWs f (ladv s)
      else if c = '#' then skipWs f (skipComment s.text.length s)
      else s

/-- The digit-and-dot collection loop of `get_number`. -/
def collectNumber : Nat → LState → List Char → List Char × LState
  | 0, s, acc => (acc, s)
  | f + 1, s, acc =>
    match s.text with
    | [] => (acc, s)
    | c :: _ =>
      if c.isDigit ∨ c = '.' then collectNumber f (ladv s) (acc ++ [c]) else (acc, s)

/-- Digits to a natural number (Python `int`). -/
def digitsToNat (cs : List Char) : Nat :=
  cs.foldl (fun a c => a * 10 + (c.toNat - 48)) 0

/-- The numeric value of a collected number literal, mirroring
`get_number`'s branch on a dot: with a dot it is Python `float(result)`
(modelled as the exact rational), otherwise `int(result)`. -/
def numLit (cs : List Char) : ℚ :=
  if cs.contains '.' then
    let intPart := cs.takeWhile (fun c => c ≠ '.')
    let frac := ((cs.dropWhile (fun c => c ≠ '.')).drop 1)
    (digitsToNat intPart : ℚ) + (digitsToNat frac : ℚ) / ((10 : ℚ) ^ frac.length)
  else (digitsToNat cs : ℚ)

/-- The character collection loop of `get_string`: everything up to the
closing quote; the end of text is an unterminated-string error carrying the
start column. -/
def collectString : Nat → Char → Nat → LState → List Char →
    Except LErr (List Char × LState)
  | 0, _, _, _, _ => .error .fuel
  | f + 1, q, startCol, s, acc =>
    match s.text with
    | [] => .error (.unterminated s.line startCol)
    | c :: _ =>
      if c = q then .ok (acc, ladv s)
      else collectString f q startCol (ladv s) (acc ++ [c])

/-- The identifier collection loop of `get_id_or_keyword` (alphanumerics and
underscores). -/
def collectIdent : Nat → LState → List Char → List Char × LState
  | 0, s, acc => (acc, s)
  | f + 1, s, acc =>
    match s.text with
    | [] => (acc, s)
    | c :: _ =>
      if c.isAlphanum ∨ c = '_' then collectIdent f (ladv s) (acc ++ [c]) else (acc, s)

/-- The `RESERVED_KEYWORDS` table. -/
def reservedLookup (s : String) : Option TokType :=
  if s = "IF" then some .IF
  else if s = "THEN" then some .THEN
  else if s = "ELSE" then some .ELSE
  else if s = "SET" then some .SET
  else if s = "AND" then some .AND
  else if s = "OR" then some .OR
  else if s = "NOT" then some .NOT
  else if s = "IS" then some .IS
  else if s = "NULL" then some .NULL
  else if s = "TRUE" then some .BOOLEAN
  else if s = "FALSE" then some .BOOLEAN
  else if s = "COUNT" then some .COUNT
  else if s = "WHERE" then some .WHERE
  else none

/-- Model of `Lexer.get_next_token`. Unquoted alphanumeric runs must be
reserved words; anything else is a `LexerError` (quoted-identifier policy). -/
def getNextToken : Nat → LState → Except LErr (Token × LState)
  | 0, _ => .error .fuel
  | f + 1, s =>
    match s.text with
    | [] => .ok (⟨.EOF, .none, s.line, s.col⟩, s)
    | c :: _ =>
      let startCol := s.col
      if c = '\n' then .ok (⟨.NEWLINE, .str "\n", s.line, s.col⟩, ladv s)
      else if c = ' ' ∨ c = '\t' ∨ c = '\r' ∨ c = '#' then
        getNextToken f (skipWs s.text.length s)
      else if c.isDigit then
        match collectNumber s.text.length s [] with
        | (ds, s1) =>
          if 1 < (ds.filter (fun d => d = '.')).length then
            .error (.invalidNumber (String.mk ds) s1.line startCol)
          else .ok (⟨.NUMBER, .num (numLit ds), s1.line, startCol⟩, s1)
      else if c = '"' then
        match collectString s.text.length '"' startCol (ladv s) [] with
        | .error e => .error e
        | .ok (cs, s1) => .ok (⟨.STRING, .str (String.mk cs), s1.line, startCol⟩, s1)
      else if c = sq then
        match collectString s.text.length sq startCol (ladv s) [] with
        | .error e => .error e
        | .ok (cs, s1) => .ok (⟨.IDENTIFIER, .str (String.mk cs), s1.line, startCol⟩, s1)
      else if c.isAlpha then
        match collectIdent s.text.length s [] with
        | (cs, s1) =>
          let upper := String.mk (cs.map Char.toUpper)
          match reservedLookup upper with
          | some .BOOLEAN =>
            .ok (⟨.BOOLEAN, .bool (upper = "TRUE"), s1.line, startCol⟩, s1)
          | some tt => .ok (⟨tt, .str upper, s1.line, startCol⟩, s1)
          | none => .error (.invalidIdent (String.mk cs) s1.line startCol)
      else if c = '>' then
        let s1 := ladv s
        match s1.text with
        | '=' :: _ => .ok (⟨.GTE, .str ">=", s1.line, startCol⟩, ladv s1)
        | _ => .ok (⟨.GT, .str ">", s1.line, startCol⟩, s1)
      else if c = '<' then
        let s1 := ladv s
        match s1.text with
        | '=' :: _ => .ok (⟨.LTE, .str "<=", s1.line, startCol⟩, ladv s1)
        | _ => .ok (⟨.LT, .str "<", s1.line, startCol⟩, s1)
      else if c = '=' then
        let s1 := ladv s
        match s1.text with
        | '=' :: _ => .ok (⟨.EQ, .str "==", s1.line, startCol⟩, ladv s1)
        | _ => .ok (⟨.ASSIGN, .str "=", s1.line, startCol⟩, s1)
      else if c = '!' then
        let s1 := ladv s
        match s1.text with
        | '=' :: _ => .ok (⟨.NEQ, .str "!=", s1.line, startCol⟩, ladv s1)
        | _ => .error (.invalidBang s1.line startCol)
      else if c = '(' then .ok (⟨.LPAREN, .str "(", s.line, startCol⟩, ladv s)
      else if c = ')' then .ok (⟨.RPAREN, .str ")", s.line, startCol⟩, ladv s)
      else .error (.invalidChar c (ladv s).line startCol)

/-- The token accumulation loop of `Lexer.tokenize`. -/
def tokenizeLoop : Nat → LState → List Token → Except LErr (List Token)
  | 0, _, _ => .error .fuel
  | f + 1, s, acc =>
    match getNextToken (s.text.length + 1) s with
    | .error e => .error e
    | .ok (t, s1) =>
      if t.type = .EOF then .ok (acc ++ [t])
      else tokenizeLoop f s1 (acc ++ [t])

/-- Model of `Lexer.tokenize` on a whole text. -/
def tokenize (text : List Char) : Except LErr (List Token) :=
  tokenizeLoop (text.length + 1) (LState.mk text 1 1) []

/-- Model of `run_interpreter`'s pipeline on an in-memory table: lex, parse,
execute; a `LexerError` or `ParserError` aborts the run. -/
def runPipeline (text : List Char) (rows : List Row) :
    Except LErr (Except PErr (List Row × List (Value × ExecErr))) :=
  match tokenize text with
  | .error e => .error e
  | .ok toks =>
    match parseScript (4 * toks.length + 16) toks with
    | .error e => .ok (.error e)
    | .ok rules => .ok (.ok (execute rules rows))

/-! ### Concrete inputs used in examples -/

/-- The exact script of the spec's worked example:
`IF 'hr' > 100 THEN SET flag = true` (note the unquoted `flag`). -/
def c9ScriptA : List Char :=
  "IF ".data ++ [sq] ++ "hr".data ++ [sq] ++ " > 100 THEN SET flag = true".data

/-- The same script with the SET target quoted, which does lex:
`IF 'hr' > 100 THEN SET 'flag' = true`. -/
def c9ScriptB : List Char :=
  "IF ".data ++ [sq] ++ "hr".data ++ [sq] ++ " > 100 THEN SET ".data ++
    [sq] ++ "flag".data ++ [sq] ++ " = true".data

/-- Tokens of `'a' IS NULL AND 'b' IS NULL OR 'c' IS NULL`. -/
def c3TokensA : List Token :=
  [tok .IDENTIFIER (.str "a"), tok .IS .none, tok .NULL .none,
   tok .AND .none, tok .IDENTIFIER (.str "b"), tok .IS .none, tok .NULL .none,
   tok .OR .none, tok .IDENTIFIER (.str "c"), tok .IS .none, tok .NULL .none,
   tok .EOF .none]

/-- Tokens of `'a' IS NULL OR 'b' IS NULL AND 'c' IS NULL`. -/
def c3TokensB : List Token :=
  [tok .IDENTIFIER (.str "a"), tok .IS .none, tok .NULL .none,
   tok .OR .none, tok .IDENTIFIER (.str "b"), tok .IS .none, tok .NULL .none,
   tok .AND .none, tok .IDENTIFIER (.str "c"), tok .IS .none, tok .NULL .none,
   tok .EOF .none]

/-- Tokens of `NOT 'a' IS NULL`. -/
def c3TokensN : List Token :=
  [tok .NOT .none, tok .IDENTIFIER (.str "a"), tok .IS .none, tok .NULL .none,
   tok .EOF .none]

/-- Tokens of `( 'a' IS NULL )`. -/
def c3TokensP : List Token :=
  [tok .LPAREN .none, tok .IDENTIFIER (.str "a"), tok .IS .none, tok .NULL .none,
   tok .RPAREN .none, tok .EOF .none]

/-- Tokens of two top-level rules separated by a blank line:
`IF 'a' IS NULL THEN SET 'x' = 1 <blank line> IF 'b' IS NULL THEN SET 'y' = 2`. -/
def c6TokensTwo : List Token :=
  [tok .IF .none, tok .IDENTIFIER (.str "a"), tok .IS .none, tok .NULL .none,
   tok .THEN .none, tok .SET .none, tok .IDENTIFIER (.str "x"), tok .ASSIGN .none,
   tok .NUMBER (.num 1), tok .NEWLINE (.str "\n"), tok .NEWLINE (.str "\n"),
   tok .IF .none, tok .IDENTIFIER (.str "b"), tok .IS .none, tok .NULL .none,
   tok .THEN .none, tok .SET .none, tok .IDENTIFIER (.str "y"), tok .ASSIGN .none,
   tok .NUMBER (.num 2), tok .EOF .none]

/-- The same tokens with a single newline instead of the blank line. -/
def c6TokensOne : List Token :=
  c6TokensTwo.take 9 ++ [tok .NEWLINE (.str "\n")] ++ c6TokensTwo.drop 11

/-- Tokens starting at a SET action followed by a blank line and an IF
(the tail of `c6TokensTwo` from position 5). -/
def c6TokensSet : List Token := c6TokensTwo.drop 5

/-- Cache-extension relation between executor states: the final cache is the
initial one extended in front by some new entries, one full-table scan was
performed per new entry, the new keys are pairwise distinct and were not
cached before. This is the shape every evaluator step preserves. -/
def CacheExt (s s' : ExecState) : Prop :=
  ∃ new : List (Nat × Nat), s'.cache = new ++ s.cache ∧
    s'.scans = s.scans + new.length ∧
    (new.map Prod.fst).Nodup ∧
    ∀ k ∈ new.map Prod.fst, cacheGet? s.cache k = none

/-- Row-table evolution under reads of one column `name`: the table keeps
its length and every row is either untouched or extended at the end by
`name` bound to null (when `name` was absent from it). -/
def RowEvo (name : String) (r0 r1 : List Row) : Prop :=
  r1.length = r0.length ∧
  ∀ k, r1.get? k = r0.get? k ∨
    ∃ row, r0.get? k = some row ∧ rowGet? row name = none ∧
      r1.get? k = some (row ++ [(name, Value.null)])

/-- Row `j` of the table carries the column `name`. -/
def hasField (rows : List Row) (j : Nat) (name : String) : Prop :=
  ∃ row, rows.get? j = some row ∧ (rowGet? row name).isSome

/-! ### General lemmas about the evaluators -/

theorem rowGet?_append_of_none (row : Row) (name : String) (v : Value)
    (h : rowGet? row name = none) : rowGet? (row ++ [(name, v)]) name = some v := by
  have hfind : List.find? (fun p => p.1 == name) row = none := by
    unfold rowGet? at h
    rcases hf : List.find? (fun p => p.1 == name) row with _ | p
    · exact hf
    · rw [hf] at h; exact absurd h (by simp)
  unfold rowGet?
  rw [List.find?_append, hfind]
  simp

theorem RowEvo_refl (name : String) (r : List Row) : RowEvo name r r :=
  ⟨rfl, fun k => Or.inl rfl⟩

theorem RowEvo_trans (name : String) (r0 r1 r2 : List Row)
    (h01 : RowEvo name r0 r1) (h12 : RowEvo name r1 r2) : RowEvo name r0 r2 := by
  obtain ⟨hl1, h1⟩ := h01
  obtain ⟨hl2, h2⟩ := h12
  refine ⟨hl2.trans hl1, fun k => ?_⟩
  rcases h2 k with h2k | ⟨row1, hr1, hab1, hr2⟩
  · rcases h1 k with h1k | ⟨row0, hr0, hab0, hr1'⟩
    · exact Or.inl (h2k.trans h1k)
    · exact Or.inr ⟨row0, hr0, hab0, h2k.trans hr1'⟩
  · rcases h1 k with h1k | ⟨row0, hr0, hab0, hr1'⟩
    · exact Or.inr ⟨row1, h1k ▸ hr1, hab1, hr2⟩
    · exfalso
      rw [hr1'] at hr1
      have : row1 = row0 ++ [(name, Value.null)] := by
        injection hr1 with h; exact h.symm
      subst this
      rw [rowGet?_append_of_none row0 name Value.null hab0] at hab1
      exact Option.noConfusion hab1

theorem hasField_mono (name : String) (r0 r1 : List Row) (j : Nat)
    (hevo : RowEvo name r0 r1) (h : hasField r0 j name) : hasField r1 j name := by
  obtain ⟨row, hrow, hsome⟩ := h
  rcases hevo.2 j with hk | ⟨row', hr0, hab, hr1⟩
  · exact ⟨row, hk.trans hrow, hsome⟩
  · rw [hr0] at hrow
    injection hrow with h'
    subst h'
    rw [hab] at hsome
    exact absurd hsome (by simp)

theorem cacheGet?_append (a b : List (Nat × Nat)) (k : Nat) :
    cacheGet? (a ++ b) k = ((cacheGet? a k).or (cacheGet? b k)) := by
  unfold cacheGet?
  rw [List.find?_append]
  rcases h : List.find? (fun p => p.1 == k) a with _ | p <;> rw [h] <;> simp

theorem cacheGet?_isSome_of_mem (l : List (Nat × Nat)) (k : Nat)
    (h : k ∈ l.map Prod.fst) : (cacheGet? l k).isSome := by
  induction l with
  | nil => simp at h
  | cons p rest ih =>
    unfold cacheGet?
    by_cases hp : p.1 = k
    · rw [List.find?_cons_of_pos]
      · simp
      · simp [hp]
    · rw [List.find?_cons_of_neg]
      · have h2 : k ∈ rest.map Prod.fst := by
          simp only [List.map_cons, List.mem_cons] at h
          rcases h with h | h
          · exact absurd h.symm hp
          · exact h
        have h3 := ih h2
        unfold cacheGet? at h3
        exact h3
      · simp [hp]

theorem CacheExt_refl (s : ExecState) : CacheExt s s :=
  ⟨[], by simp, by simp, by simp, by simp⟩

theorem CacheExt_refl_of_eq (s s' : ExecState)
    (hc : s'.cache = s.cache) (hn : s'.scans = s.scans) : CacheExt s s' :=
  ⟨[], by simp [hc], by simp [hn], by simp, by simp⟩

theorem CacheExt_trans (s1 s2 s3 : ExecState)
    (h12 : CacheExt s1 s2) (h23 : CacheExt s2 s3) : CacheExt s1 s3 := by
  obtain ⟨n1, hc1, hs1, hd1, hf1⟩ := h12
  obtain ⟨n2, hc2, hs2, hd2, hf2⟩ := h23
  refine ⟨n2 ++ n1, by rw [hc2, hc1, List.append_assoc],
    by rw [hs2, hs1, List.length_append]; omega, ?_, ?_⟩
  · rw [List.map_append]
    rw [List.nodup_append]
    refine ⟨hd2, hd1, ?_⟩
    intro k hk2 hk1
    have := hf2 k hk2
    rw [hc1, cacheGet?_append] at this
    have hsome := cacheGet?_isSome_of_mem n1 k hk1
    rcases h : cacheGet? n1 k with _ | v
    · rw [h] at hsome; simp at hsome
    · rw [h] at this; simp at this
  · intro k hk
    rw [List.map_append, List.mem_append] at hk
    rcases hk with hk | hk
    · have := hf2 k hk
      rw [hc1, cacheGet?_append] at this
      rcases h : cacheGet? n1 k with _ | v
      · rw [h] at this; simpa using this
      · rw [h] at this; simp at this
    · exact hf1 k hk

theorem evalIdent_cs (name : String) (i : Nat) (s : ExecState) :
    (evalIdent name i s).2.cache = s.cache ∧ (evalIdent name i s).2.scans = s.scans := by
  unfold evalIdent
  split
  · exact ⟨rfl, rfl⟩
  · split
    · exact ⟨rfl, rfl⟩
    · exact ⟨rfl, rfl⟩

theorem evalRValue_cs (rv : RValue) (i : Nat) (s : ExecState) :
    (evalRValue rv i s).2.cache = s.cache ∧ (evalRValue rv i s).2.scans = s.scans := by
  cases rv with
  | value v => exact ⟨rfl, rfl⟩
  | ident name => exact evalIdent_cs name i s

theorem evalCond_cs (c : Cond) (i : Nat) (s : ExecState) :
    (evalCond c i s).2.cache = s.cache ∧ (evalCond c i s).2.scans = s.scans := by
  induction c generalizing s with
  | and l r ihl ihr =>
    simp only [evalCond]
    rcases h1 : evalCond l i s with ⟨res, s1⟩
    have h1' := ihl s; rw [h1] at h1'
    cases res with
    | error e => exact h1'
    | ok lv =>
      dsimp only
      by_cases hlv : lv
      · subst hlv
        simp only [Bool.not_true, if_neg (by simp : ¬ (false = true))]
        rcases h2 : evalCond r i s1 with ⟨res2, s2⟩
        have h2' := ihr s1; rw [h2] at h2'
        cases res2 with
        | error e => exact ⟨h2'.1.trans h1'.1, h2'.2.trans h1'.2⟩
        | ok rv => exact ⟨h2'.1.trans h1'.1, h2'.2.trans h1'.2⟩
      · have : lv = false := by cases lv <;> simp_all
        subst this
        simpa using h1'
  | or l r ihl ihr =>
    simp only [evalCond]
    rcases h1 : evalCond l i s with ⟨res, s1⟩
    have h1' := ihl s; rw [h1] at h1'
    cases res with
    | error e => exact h1'
    | ok lv =>
      dsimp only
      by_cases hlv : lv
      · subst hlv; simpa using h1'
      · have : lv = false := by cases lv <;> simp_all
        subst this
        simp only [if_neg (by simp : ¬ (false = true))]
        rcases h2 : evalCond r i s1 with ⟨res2, s2⟩
        have h2' := ihr s1; rw [h2] at h2'
        cases res2 with
        | error e => exact ⟨h2'.1.trans h1'.1, h2'.2.trans h1'.2⟩
        | ok rv => exact ⟨h2'.1.trans h1'.1, h2'.2.trans h1'.2⟩
  | not c ih =>
    simp only [evalCond]
    rcases h1 : evalCond c i s with ⟨res, s1⟩
    have h1' := ih s; rw [h1] at h1'
    cases res with
    | error e => exact h1'
    | ok v => exact h1'
  | cmp name op rhs =>
    simp only [evalCond]
    rcases h1 : evalIdent name i s with ⟨res, s1⟩
    have h1' := evalIdent_cs name i s; rw [h1] at h1'
    cases res with
    | error e => exact h1'
    | ok lv =>
      dsimp only
      rcases h2 : evalRValue rhs i s1 with ⟨res2, s2⟩
      have h2' := evalRValue_cs rhs i s1; rw [h2] at h2'
      cases res2 with
      | error e => exact ⟨h2'.1.trans h1'.1, h2'.2.trans h1'.2⟩
      | ok rv =>
        dsimp only
        split
        · exact ⟨h2'.1.trans h1'.1, h2'.2.trans h1'.2⟩
        · split
          · exact ⟨h2'.1.trans h1'.1, h2'.2.trans h1'.2⟩
          · exact ⟨h2'.1.trans h1'.1, h2'.2.trans h1'.2⟩
  | isNull name isNot =>
    simp only [evalCond]
    rcases h1 : evalIdent name i s with ⟨res, s1⟩
    have h1' := evalIdent_cs name i s; rw [h1] at h1'
    cases res with
    | error e => exact h1'
    | ok v => exact h1'

theorem countLoop_cs (c : Cond) (js : List Nat) (acc : Nat) (s : ExecState) :
    (countLoop c js acc s).2.cache = s.cache ∧ (countLoop c js acc s).2.scans = s.scans := by
  induction js generalizing acc s with
  | nil => exact ⟨rfl, rfl⟩
  | cons j rest ih =>
    simp only [countLoop]
    rcases h1 : evalCond c j s with ⟨res, s1⟩
    have h1' := evalCond_cs c j s; rw [h1] at h1'
    cases res with
    | ok b =>
      have h2 := ih (if b then acc + 1 else acc) s1
      exact ⟨h2.1.trans h1'.1, h2.2.trans h1'.2⟩
    | error e =>
      have h2 := ih acc s1
      exact ⟨h2.1.trans h1'.1, h2.2.trans h1'.2⟩

theorem evalCount_hit (cid : Nat) (c : Cond) (i : Nat) (s : ExecState) (n : Nat)
    (h : cacheGet? s.cache cid = some n) :
    evalCount cid c i s = (.ok (.num n), s) := by
  unfold evalCount
  rw [h]

theorem evalCount_miss (cid : Nat) (c : Cond) (i : Nat) (s : ExecState)
    (h : cacheGet? s.cache cid = none) :
    ∃ (n : Nat) (s2 : ExecState), evalCount cid c i s = (.ok (.num n), s2) ∧
      s2.cache = (cid, n) :: s.cache ∧ s2.scans = s.scans + 1 ∧
      s2.rows = (countLoop c (List.range s.rows.length) 0
        { s with scans := s.scans + 1 }).2.rows := by
  unfold evalCount
  rw [h]
  dsimp only
  refine ⟨_, _, rfl, ?_, ?_, rfl⟩
  · have := countLoop_cs c (List.range s.rows.length) 0 { s with scans := s.scans + 1 }
    simp only [this.1]
  · have := countLoop_cs c (List.range s.rows.length) 0 { s with scans := s.scans + 1 }
    simp only [this.2]

theorem evalCount_cacheExt (cid : Nat) (c : Cond) (i : Nat) (s : ExecState) :
    CacheExt s (evalCount cid c i s).2 := by
  rcases h : cacheGet? s.cache cid with _ | n
  · obtain ⟨n, s2, heq, hc, hs, _⟩ := evalCount_miss cid c i s h
    rw [heq]
    exact ⟨[(cid, n)], by simpa using hc, by simpa using hs, by simp, by simpa using h⟩
  · rw [evalCount_hit cid c i s n h]
    exact CacheExt_refl s

/-- Reading an identifier never raises: `visit_IdentifierNode` returns a
value on every row and every name. -/
theorem evalIdent_total (name : String) (i : Nat) (s : ExecState) :
    ∃ v s', evalIdent name i s = (.ok v, s') := by
  unfold evalIdent
  split
  · exact ⟨_, _, rfl⟩
  · split
    · exact ⟨_, _, rfl⟩
    · exact ⟨_, _, rfl⟩

theorem visit_cacheExt_aux : ∀ n : Nat,
    (∀ r : Rule, sizeOf r ≤ n → ∀ (i : Nat) (s : ExecState),
      CacheExt s (visitRule r i s).2) ∧
    (∀ acts : List Action, sizeOf acts ≤ n → ∀ (i : Nat) (s : ExecState),
      CacheExt s (visitActions acts i s).2) ∧
    (∀ a : Action, sizeOf a ≤ n → ∀ (i : Nat) (s : ExecState),
      CacheExt s (visitAction a i s).2) := by
  intro n
  induction n with
  | zero =>
    refine ⟨?_, ?_, ?_⟩
    · intro r hr; cases r; simp at hr
    · intro acts ha; cases acts <;> simp at ha
    · intro a ha; cases a <;> simp at ha
  | succ n ih =>
    refine ⟨?_, ?_, ?_⟩
    · intro r hr i s
      cases r with
      | mk c thenA elseA =>
        have hthen : sizeOf thenA ≤ n := by
          simp only [Rule.mk.sizeOf_spec] at hr; omega
        rw [visitRule.eq_def]
        dsimp only
        rcases h1 : evalCond c i s with ⟨res, s1⟩
        have h1' := evalCond_cs c i s; rw [h1] at h1'
        have hext1 : CacheExt s s1 := CacheExt_refl_of_eq s s1 h1'.1 h1'.2
        cases res with
        | error e => exact hext1
        | ok b =>
          dsimp only
          by_cases hb : b
          · subst hb
            simp only [if_pos rfl]
            rcases h2 : visitActions thenA i s1 with ⟨res2, s2⟩
            have h2' := ih.2.1 thenA hthen i s1; rw [h2] at h2'
            cases res2 with
            | error e => exact CacheExt_trans _ _ _ hext1 h2'
            | ok u => exact CacheExt_trans _ _ _ hext1 h2'
          · have hb' : b = false := by cases b <;> simp_all
            subst hb'
            simp only [if_neg (by simp : ¬ (false = true))]
            cases elseA with
            | none => exact hext1
            | some acts =>
              have hacts : sizeOf acts ≤ n := by
                simp only [Rule.mk.sizeOf_spec, Option.some.sizeOf_spec] at hr; omega
              dsimp only
              rcases h2 : visitActions acts i s1 with ⟨res2, s2⟩
              have h2' := ih.2.1 acts hacts i s1; rw [h2] at h2'
              cases res2 with
              | error e => exact CacheExt_trans _ _ _ hext1 h2'
              | ok u => exact CacheExt_trans _ _ _ hext1 h2'
    · intro acts ha i s
      cases acts with
      | nil =>
        rw [visitActions.eq_def]
        exact CacheExt_refl s
      | cons a rest =>
        have ha' : sizeOf a ≤ n ∧ sizeOf rest ≤ n := by
          simp only [List.cons.sizeOf_spec] at ha; omega
        rw [visitActions.eq_def]
        dsimp only
        rcases h1 : visitAction a i s with ⟨res, s1⟩
        have h1' := ih.2.2 a ha'.1 i s; rw [h1] at h1'
        cases res with
        | error e => exact h1'
        | ok u =>
          have h2' := ih.2.1 rest ha'.2 i s1
          exact CacheExt_trans _ _ _ h1' h2'
    · intro a ha i s
      cases a with
      | set name v =>
        cases v with
        | lit l =>
          rw [visitAction.eq_def]
          dsimp only
          rcases h2 : s.rows.get? i with _ | row
          · exact CacheExt_refl s
          · exact CacheExt_refl_of_eq _ _ rfl rfl
        | count cid c =>
          rw [visitAction.eq_def]
          dsimp only
          rcases h1 : evalCount cid c i s with ⟨res, s1⟩
          have h1' := evalCount_cacheExt cid c i s; rw [h1] at h1'
          cases res with
          | error e => exact h1'
          | ok nv =>
            dsimp only
            rcases h2 : s1.rows.get? i with _ | row
            · exact h1'
            · exact CacheExt_trans _ _ _ h1' (CacheExt_refl_of_eq _ _ rfl rfl)
      | nested r =>
        have hr : sizeOf r ≤ n := by
          simp only [Action.nested.sizeOf_spec] at ha; omega
        simp only [visitAction]
        rcases h1 : visitRule r i s with ⟨res, s1⟩
        have h1' := ih.1 r hr i s; rw [h1] at h1'
        cases res with
        | error e => exact h1'
        | ok b => exact h1'

theorem visitRule_cacheExt (r : Rule) (i : Nat) (s : ExecState) :
    CacheExt s (visitRule r i s).2 :=
  (visit_cacheExt_aux (sizeOf r)).1 r le_rfl i s

theorem runRuleRows_cacheExt (ru : Rule) (js : List Nat) (s : ExecState) :
    CacheExt s (runRuleRows ru js s).2 := by
  induction js generalizing s with
  | nil => exact CacheExt_refl s
  | cons j rest ih =>
    simp only [runRuleRows]
    rcases h1 : visitRule ru j s with ⟨res, s1⟩
    have h1' := visitRule_cacheExt ru j s; rw [h1] at h1'
    cases res with
    | ok b => exact CacheExt_trans _ _ _ h1' (ih s1)
    | error e => exact CacheExt_trans _ _ _ h1' (ih s1)

theorem cmpVal_step (name : String) (op : CmpOp) (lit : Value) (j : Nat) (s : ExecState) :
    ((evalCond (.cmp name op (.value lit)) j s).2 = s ∧
       ∀ row, s.rows.get? j = some row → (rowGet? row name).isSome) ∨
    (∃ row, s.rows.get? j = some row ∧ rowGet? row name = none ∧
       (evalCond (.cmp name op (.value lit)) j s).2 =
         { s with rows := s.rows.set j (row ++ [(name, Value.null)]) }) := by
  rcases hrow : s.rows.get? j with _ | row
  · left
    refine ⟨?_, ?_⟩
    · simp only [evalCond, evalIdent, evalRValue]
      rw [hrow]
      dsimp only
      simp [isna]
    · intro row' h'
      exact Option.noConfusion h'
  · rcases hv : rowGet? row name with _ | v
    · right
      refine ⟨row, rfl, hv, ?_⟩
      simp only [evalCond, evalIdent, evalRValue]
      rw [hrow]
      dsimp only
      rw [hv]
      dsimp only
      simp [isna]
    · left
      refine ⟨?_, ?_⟩
      · simp only [evalCond, evalIdent, evalRValue]
        rw [hrow]
        dsimp only
        rw [hv]
        dsimp only
        split
        · rfl
        · rcases hpc : pyCompare op v lit with e | b <;> rfl
      · intro row' h'
        injection h' with h''
        subst h''
        simp [hv]

theorem countLoop_cmpVal (name : String) (op : CmpOp) (lit : Value)
    (js : List Nat) (acc : Nat) (s : ExecState) :
    RowEvo name s.rows (countLoop (.cmp name op (.value lit)) js acc s).2.rows ∧
    ∀ j ∈ js, j < s.rows.length →
      hasField (countLoop (.cmp name op (.value lit)) js acc s).2.rows j name := by
  induction js generalizing acc s with
  | nil => exact ⟨RowEvo_refl name s.rows, by simp⟩
  | cons j rest ih =>
    rcases cmpVal_step name op lit j s with ⟨hstate, hpres⟩ | ⟨row, hrow, hab, hstate⟩
    · rcases heval : evalCond (.cmp name op (.value lit)) j s with ⟨res, s1⟩
      have hs1 : s1 = s := by rw [heval] at hstate; exact hstate
      rw [hs1] at heval
      have key : ∀ acc2 : Nat,
          RowEvo name s.rows
            (countLoop (.cmp name op (.value lit)) rest acc2 s).2.rows ∧
          ∀ j' ∈ j :: rest, j' < s.rows.length →
            hasField (countLoop (.cmp name op (.value lit)) rest acc2 s).2.rows j' name := by
        intro acc2
        obtain ⟨hevo, hmem⟩ := ih acc2 s
        refine ⟨hevo, ?_⟩
        intro j' hj' hlt
        rcases List.mem_cons.mp hj' with hj' | hj'
        · subst hj'
          have hget : s.rows.get? j' = some (s.rows.get ⟨j', hlt⟩) := List.get?_eq_get hlt
          exact hasField_mono name _ _ j' hevo ⟨_, hget, hpres _ hget⟩
        · exact hmem j' hj' hlt
      cases res with
      | ok b =>
        simp only [countLoop]
        rw [heval]
        exact key (if b then acc + 1 else acc)
      | error e =>
        simp only [countLoop]
        rw [heval]
        exact key acc
    · rcases heval : evalCond (.cmp name op (.value lit)) j s with ⟨res, s1⟩
      have hs1 : s1 = { s with rows := s.rows.set j (row ++ [(name, Value.null)]) } := by
        rw [heval] at hstate; exact hstate
      rw [hs1] at heval
      have hjlt : j < s.rows.length := by
        rcases List.get?_eq_some.mp hrow with ⟨h, _⟩
        exact h
      have hstepEvo : RowEvo name s.rows
          (s.rows.set j (row ++ [(name, Value.null)])) := by
        refine ⟨by simp, fun k => ?_⟩
        by_cases hk : k = j
        · subst hk
          exact Or.inr ⟨row, hrow, hab, List.get?_set_eq_of_lt _ hjlt⟩
        · exact Or.inl (List.get?_set_ne _ _ (fun h => hk h.symm))
      have key : ∀ acc2 : Nat,
          RowEvo name s.rows
            (countLoop (.cmp name op (.value lit)) rest acc2
              { s with rows := s.rows.set j (row ++ [(name, Value.null)]) }).2.rows ∧
          ∀ j' ∈ j :: rest, j' < s.rows.length →
            hasField
              (countLoop (.cmp name op (.value lit)) rest acc2
                { s with rows := s.rows.set j (row ++ [(name, Value.null)]) }).2.rows
              j' name := by
        intro acc2
        obtain ⟨hevo, hmem⟩ :=
          ih acc2 { s with rows := s.rows.set j (row ++ [(name, Value.null)]) }
        refine ⟨RowEvo_trans name _ _ _ hstepEvo hevo, ?_⟩
        intro j' hj' hlt
        rcases List.mem_cons.mp hj' with hj' | hj'
        · subst hj'
          have hj'pres : hasField (s.rows.set j' (row ++ [(name, Value.null)])) j' name := by
            refine ⟨row ++ [(name, Value.null)], List.get?_set_eq_of_lt _ hjlt, ?_⟩
            rw [rowGet?_append_of_none row name Value.null hab]
            simp
          exact hasField_mono name _ _ j' hevo hj'pres
        · refine hmem j' hj' ?_
          simpa using hlt
      cases res with
      | ok b =>
        simp only [countLoop]
        rw [heval]
        exact key (if b then acc + 1 else acc)
      | error e =>
        simp only [countLoop]
        rw [heval]
        exact key acc

/-! ### Claim C10 -/

/-- C10: a cache-missing COUNT whose condition compares column `name`
against a literal evaluates its condition against every row of the table:
afterwards every row carries the column `name`; a row that lacked it has
been mutated in place (extended by `name` bound to null), every other row
is returned unchanged — so a single COUNT triggered from one context row
can mutate every other row of the table, regardless of any outer rule's
condition. -/
theorem C10_count_frame_effect (name : String) (op : CmpOp) (lit : Value)
    (cid i : Nat) (s : ExecState)
    (hmiss : cacheGet? s.cache cid = none) :
    ∃ (n : Nat) (s2 : ExecState),
      evalCount cid (.cmp name op (.value lit)) i s = (.ok (.num n), s2) ∧
      s2.rows.length = s.rows.length ∧
      ∀ j, j < s.rows.length →
        ∃ row row', s.rows.get? j = some row ∧ s2.rows.get? j = some row' ∧
          (rowGet? row' name).isSome ∧
          (((rowGet? row name).isSome ∧ row' = row) ∨
           (rowGet? row name = none ∧ row' = row ++ [(name, Value.null)])) := by
  obtain ⟨n, s2, heq, hc, hs, hrows⟩ :=
    evalCount_miss cid (.cmp name op (.value lit)) i s hmiss
  obtain ⟨hevo, hmem⟩ := countLoop_cmpVal name op lit (List.range s.rows.length) 0
    { s with scans := s.scans + 1 }
  rw [← hrows] at hevo hmem
  refine ⟨n, s2, heq, hevo.1, ?_⟩
  intro j hj
  have hget : s.rows.get? j = some (s.rows.get ⟨j, hj⟩) := List.get?_eq_get hj
  rcases hevo.2 j with hk | ⟨row0, hget0, hab, hget2⟩
  · obtain ⟨rowX, hgetX, hsomeX⟩ := hmem j (List.mem_range.mpr hj) hj
    have hrow' : s2.rows.get? j = some (s.rows.get ⟨j, hj⟩) := by
      rw [hk]; exact hget
    have hxy : rowX = s.rows.get ⟨j, hj⟩ := by
      rw [hrow'] at hgetX; injection hgetX with h; exact h.symm
    subst hxy
    exact ⟨s.rows.get ⟨j, hj⟩, s.rows.get ⟨j, hj⟩, hget, hrow', hsomeX,
      Or.inl ⟨hsomeX, rfl⟩⟩
  · refine ⟨row0, row0 ++ [(name, Value.null)], hget0, hget2, ?_, Or.inr ⟨hab, rfl⟩⟩
    rw [rowGet?_append_of_none row0 name Value.null hab]
    simp

/-- Concrete instance of C10: counting `x > 2` over the table
`[[("x", 3)], [("y", 1)]]` scans both rows; row 0 is unchanged and row 1 —
for which the enclosing rule's condition plays no role — gains `x = null`. -/
theorem C10_count_frame_effect_witness :
    (∃ (n : Nat) (s2 : ExecState),
      evalCount 5 (.cmp "x" .gt (.value (.num 2))) 0
          (ExecState.mk [[("x", Value.num 3)], [("y", Value.num 1)]] [] 0) =
        (.ok (.num n), s2) ∧
      s2.rows.length =
        (ExecState.mk [[("x", Value.num 3)], [("y", Value.num 1)]] [] 0).rows.length ∧
      ∀ j, j < (ExecState.mk [[("x", Value.num 3)], [("y", Value.num 1)]] [] 0).rows.length →
        ∃ row row',
          (ExecState.mk [[("x", Value.num 3)], [("y", Value.num 1)]] [] 0).rows.get? j =
            some row ∧
          s2.rows.get? j = some row' ∧
          (rowGet? row' "x").isSome ∧
          (((rowGet? row "x").isSome ∧ row' = row) ∨
           (rowGet? row "x" = none ∧ row' = row ++ [("x", Value.null)]))) ∧
    evalCount 5 (.cmp "x" .gt (.value (.num 2))) 0
        (ExecState.mk [[("x", Value.num 3)], [("y", Value.num 1)]] [] 0) =
      (.ok (.num 1),
        ExecState.mk
          [[("x", Value.num 3)], [("y", Value.num 1), ("x", Value.null)]] [(5, 1)] 1) :=
  ⟨C10_count_frame_effect "x" .gt (.num 2) 5 0
      (ExecState.mk [[("x", Value.num 3)], [("y", Value.num 1)]] [] 0) rfl,
   rfl⟩

/-! ### Claim C4 -/

/-- C4: while one outer rule runs across all rows, the number of full-table
scans performed by COUNT equals the number of distinct Count subtrees
(cache keys, i.e. AST-node identities) that were evaluated during that rule:
starting from the empty cache the rule adds exactly one scan per cache entry
and the cached keys are pairwise distinct; a COUNT whose node identity is
already cached returns the memoized integer with no scan and no state
change; and `execute` clears the memo before each outer rule begins (the
outcome of the remaining script is independent of the incoming cache). -/
theorem C4_count_memoization (ru : Rule) (rest : List Rule) (s : ExecState)
    (cid : Nat) (c : Cond) (i n : Nat) (t : ExecState)
    (hhit : cacheGet? t.cache cid = some n) :
    ((runRuleRows ru (List.range s.rows.length) { s with cache := [] }).2.scans =
        s.scans +
          (runRuleRows ru (List.range s.rows.length) { s with cache := [] }).2.cache.length ∧
      (((runRuleRows ru (List.range s.rows.length) { s with cache := [] }).2.cache.map
          Prod.fst)).Nodup) ∧
    evalCount cid c i t = (.ok (.num n), t) ∧
    (∀ c1 c2 : List (Nat × Nat),
      execScript (ru :: rest) { s with cache := c1 } =
        execScript (ru :: rest) { s with cache := c2 }) := by
  refine ⟨?_, evalCount_hit cid c i t n hhit, ?_⟩
  · obtain ⟨new, hc, hs, hd, hf⟩ :=
      runRuleRows_cacheExt ru (List.range s.rows.length) { s with cache := [] }
    refine ⟨?_, ?_⟩
    · rw [hs, hc]
      simp
    · rw [hc]
      simpa using hd
  · intro c1 c2
    simp only [execScript]

/-- Concrete instance of C4: a rule whose two SETs hold two distinct COUNT
nodes (identities 10 and 20), over a two-row table; the hit branch is
exercised with identity 10 cached as 2. -/
theorem C4_count_memoization_witness :
    ((runRuleRows
        (.mk (.isNull "q" false)
          [.set "c1f" (.count 10 (.cmp "a" .gt (.value (.num 0)))),
           .set "c2f" (.count 20 (.cmp "a" .gt (.value (.num 1))))] none)
        (List.range
          (ExecState.mk [[("a", Value.num 1)], [("a", Value.num 2)]] [] 0).rows.length)
        { ExecState.mk [[("a", Value.num 1)], [("a", Value.num 2)]] [] 0 with cache := [] }).2.scans =
      (ExecState.mk [[("a", Value.num 1)], [("a", Value.num 2)]] [] 0).scans +
        (runRuleRows
          (.mk (.isNull "q" false)
            [.set "c1f" (.count 10 (.cmp "a" .gt (.value (.num 0)))),
             .set "c2f" (.count 20 (.cmp "a" .gt (.value (.num 1))))] none)
          (List.range
            (ExecState.mk [[("a", Value.num 1)], [("a", Value.num 2)]] [] 0).rows.length)
          { ExecState.mk [[("a", Value.num 1)], [("a", Value.num 2)]] [] 0 with
              cache := [] }).2.cache.length ∧
      ((runRuleRows
          (.mk (.isNull "q" false)
            [.set "c1f" (.count 10 (.cmp "a" .gt (.value (.num 0)))),
             .set "c2f" (.count 20 (.cmp "a" .gt (.value (.num 1))))] none)
          (List.range
            (ExecState.mk [[("a", Value.num 1)], [("a", Value.num 2)]] [] 0).rows.length)
          { ExecState.mk [[("a", Value.num 1)], [("a", Value.num 2)]] [] 0 with
              cache := [] }).2.cache.map Prod.fst).Nodup) ∧
    evalCount 10 (.isNull "a" false) 0
        (ExecState.mk [[("a", Value.num 1)], [("a", Value.num 2)]] [(10, 2)] 5) =
      (.ok (.num 2), ExecState.mk [[("a", Value.num 1)], [("a", Value.num 2)]] [(10, 2)] 5) ∧
    (∀ c1 c2 : List (Nat × Nat),
      execScript
          [.mk (.isNull "q" false)
            [.set "c1f" (.count 10 (.cmp "a" .gt (.value (.num 0)))),
             .set "c2f" (.count 20 (.cmp "a" .gt (.value (.num 1))))]
            none]
          { ExecState.mk [[("a", Value.num 1)], [("a", Value.num 2)]] [] 0 with cache := c1 } =
        execScript
          [.mk (.isNull "q" false)
            [.set "c1f" (.count 10 (.cmp "a" .gt (.value (.num 0)))),
             .set "c2f" (.count 20 (.cmp "a" .gt (.value (.num 1))))]
            none]
          { ExecState.mk [[("a", Value.num 1)], [("a", Value.num 2)]] [] 0 with cache := c2 }) :=
  C4_count_memoization
    (.mk (.isNull "q" false)
      [.set "c1f" (.count 10 (.cmp "a" .gt (.value (.num 0)))),
       .set "c2f" (.count 20 (.cmp "a" .gt (.value (.num 1))))] none)
    [] (ExecState.mk [[("a", Value.num 1)], [("a", Value.num 2)]] [] 0)
    10 (.isNull "a" false) 0 2
    (ExecState.mk [[("a", Value.num 1)], [("a", Value.num 2)]] [(10, 2)] 5) rfl

/-! ### Claim C1 -/

/-- C1: a comparison whose left or right operand evaluates to null yields
false with no runtime error; and `IS NULL` / `IS NOT NULL` yields the
definite boolean `pd.isna` dictates (never null, never an error). -/
theorem C1_null_comparison_safe (name : String) (op : CmpOp) (rhs : RValue)
    (i : Nat) (s s1 s2 : ExecState) (lv rv : Value)
    (nm : String) (neg : Bool) (j : Nat) (t t1 : ExecState) (v : Value)
    (hl : evalIdent name i s = (.ok lv, s1))
    (hr : evalRValue rhs i s1 = (.ok rv, s2))
    (hnull : isna lv = true ∨ isna rv = true)
    (hid : evalIdent nm j t = (.ok v, t1)) :
    evalCond (.cmp name op rhs) i s = (.ok false, s2) ∧
    evalCond (.isNull nm neg) j t = (.ok (if neg then !(isna v) else isna v), t1) := by
  constructor
  · simp only [evalCond]
    rw [hl]
    dsimp only
    rw [hr]
    dsimp only
    rcases hnull with h | h <;> simp [h]
  · simp only [evalCond]
    rw [hid]

/-- Concrete instance of C1: on the single row `[("hr", null)]`, the
comparison `hr > 100` yields false without error, and `hr IS NULL` yields
true. -/
theorem C1_null_comparison_safe_witness :
    evalCond (.cmp "hr" .gt (.value (.num 100))) 0
        { rows := [[("hr", Value.null)]], cache := [], scans := 0 } =
      (.ok false, { rows := [[("hr", Value.null)]], cache := [], scans := 0 }) ∧
    evalCond (.isNull "hr" false) 0
        { rows := [[("hr", Value.null)]], cache := [], scans := 0 } =
      (.ok (if false then !(isna Value.null) else isna Value.null),
        { rows := [[("hr", Value.null)]], cache := [], scans := 0 }) :=
  C1_null_comparison_safe "hr" .gt (.value (.num 100)) 0 _ _ _ .null (.num 100)
    "hr" false 0 _ _ .null rfl rfl (Or.inl rfl) rfl

/-! ### Claim C2 -/

/-- C2: AND short-circuits when the left side is falsy (result false, right
side never visited: the conclusion holds for every right operand, including
one whose evaluation would raise, so no warning can surface), and OR
short-circuits when the left side is truthy (result true). -/
theorem C2_short_circuit (l r : Cond) (i : Nat) (s s1 : ExecState) :
    (evalCond l i s = (.ok false, s1) → evalCond (.and l r) i s = (.ok false, s1)) ∧
    (evalCond l i s = (.ok true, s1) → evalCond (.or l r) i s = (.ok true, s1)) := by
  constructor <;> intro h <;> simp only [evalCond] <;> rw [h] <;> simp

/-- Concrete instance of C2: with row `[("a", 1)]`, the right operand
`a > "x"` raises a type-mismatch on its own, yet `a IS NULL AND a > "x"`
yields false and `a IS NOT NULL OR a > "x"` yields true, with no error. -/
theorem C2_short_circuit_witness :
    evalCond (.and (.isNull "a" false) (.cmp "a" .gt (.value (.str "x")))) 0
        { rows := [[("a", Value.num 1)]], cache := [], scans := 0 } =
      (.ok false, { rows := [[("a", Value.num 1)]], cache := [], scans := 0 }) ∧
    evalCond (.or (.isNull "a" true) (.cmp "a" .gt (.value (.str "x")))) 0
        { rows := [[("a", Value.num 1)]], cache := [], scans := 0 } =
      (.ok true, { rows := [[("a", Value.num 1)]], cache := [], scans := 0 }) ∧
    evalCond (.cmp "a" .gt (.value (.str "x"))) 0
        { rows := [[("a", Value.num 1)]], cache := [], scans := 0 } =
      (.error (.typeMismatch (.num 1) (.str "x")),
        { rows := [[("a", Value.num 1)]], cache := [], scans := 0 }) :=
  ⟨(C2_short_circuit (.isNull "a" false) (.cmp "a" .gt (.value (.str "x"))) 0 _ _).1 rfl,
   (C2_short_circuit (.isNull "a" true) (.cmp "a" .gt (.value (.str "x"))) 0 _ _).2 rfl,
   rfl⟩

/-! ### Claim C5 -/

/-- C5: a runtime error (such as a type-mismatched comparison) raised while
a rule runs on one row abandons only that row: `execute` records a warning
carrying the row's `Patient ID` and the error, and continues with the next
row from the state as mutated so far; the same error raised while a COUNT
evaluates its condition on some row is swallowed entirely — the count
accumulator is unchanged by that row, no warning is recorded, and the scan
continues with the next row. -/
theorem C5_row_error_containment (ru : Rule) (i : Nat) (rest : List Nat)
    (s s1 : ExecState) (e : ExecErr)
    (herr : visitRule ru i s = (.error e, s1))
    (c : Cond) (j : Nat) (js : List Nat) (acc : Nat) (t t1 : ExecState) (e2 : ExecErr)
    (hcerr : evalCond c j t = (.error e2, t1)) :
    runRuleRows ru (i :: rest) s =
      ((mkWarning s1 i e) :: (runRuleRows ru rest s1).1, (runRuleRows ru rest s1).2) ∧
    countLoop c (j :: js) acc t = countLoop c js acc t1 := by
  constructor
  · simp only [runRuleRows]
    rw [herr]
  · simp only [countLoop]
    rw [hcerr]

/-- Concrete instance of C5: the rule `IF a > 5 THEN SET flag = true` on the
row `[("Patient ID", 7), ("a", "high")]` raises a type mismatch; the row
loop yields exactly one warning pairing Patient ID 7 with the error, and a
COUNT over the same condition swallows the error for that row. -/
theorem C5_row_error_containment_witness :
    runRuleRows
        (.mk (.cmp "a" .gt (.value (.num 5))) [.set "flag" (.lit (.bool true))] none)
        [0] (ExecState.mk [[("Patient ID", Value.num 7), ("a", Value.str "high")]] [] 0) =
      ((mkWarning (ExecState.mk [[("Patient ID", Value.num 7), ("a", Value.str "high")]] [] 0)
          0 (.typeMismatch (.str "high") (.num 5))) ::
        (runRuleRows
          (.mk (.cmp "a" .gt (.value (.num 5))) [.set "flag" (.lit (.bool true))] none)
          [] (ExecState.mk [[("Patient ID", Value.num 7), ("a", Value.str "high")]] [] 0)).1,
       (runRuleRows
          (.mk (.cmp "a" .gt (.value (.num 5))) [.set "flag" (.lit (.bool true))] none)
          [] (ExecState.mk [[("Patient ID", Value.num 7), ("a", Value.str "high")]] [] 0)).2) ∧
    countLoop (.cmp "a" .gt (.value (.num 5))) [0] 0
        (ExecState.mk [[("Patient ID", Value.num 7), ("a", Value.str "high")]] [] 0) =
      countLoop (.cmp "a" .gt (.value (.num 5))) [] 0
        (ExecState.mk [[("Patient ID", Value.num 7), ("a", Value.str "high")]] [] 0) :=
  C5_row_error_containment
    (.mk (.cmp "a" .gt (.value (.num 5))) [.set "flag" (.lit (.bool true))] none)
    0 [] (ExecState.mk [[("Patient ID", Value.num 7), ("a", Value.str "high")]] [] 0)
    (ExecState.mk [[("Patient ID", Value.num 7), ("a", Value.str "high")]] [] 0)
    (.typeMismatch (.str "high") (.num 5))
    (by rw [visitRule.eq_def]; rfl)
    (.cmp "a" .gt (.value (.num 5))) 0 [] 0
    (ExecState.mk [[("Patient ID", Value.num 7), ("a", Value.str "high")]] [] 0)
    (ExecState.mk [[("Patient ID", Value.num 7), ("a", Value.str "high")]] [] 0)
    (.typeMismatch (.str "high") (.num 5)) rfl

/-! ### Claim C7 -/

/-- C7: evaluating an identifier absent from row `i` returns null and
appends the field bound to null to that row; the created field then reads
back as null, a subsequent evaluation of the same identifier on the updated
row returns null and leaves the state unchanged, and no identifier read
ever fails. -/
theorem C7_absent_read_creates_null (name : String) (i : Nat) (s : ExecState) (row : Row)
    (hrow : s.rows.get? i = some row)
    (habs : rowGet? row name = none) :
    evalIdent name i s =
      (.ok .null, { s with rows := s.rows.set i (row ++ [(name, .null)]) }) ∧
    rowGet? (row ++ [(name, .null)]) name = some .null ∧
    (∀ s2 : ExecState, s2.rows.get? i = some (row ++ [(name, .null)]) →
      evalIdent name i s2 = (.ok .null, s2)) ∧
    (∀ (nm : String) (j : Nat) (t : ExecState), ∃ v t', evalIdent nm j t = (.ok v, t')) := by
  have hfind : List.find? (fun p => p.1 == name) row = none := by
    unfold rowGet? at habs
    rcases h : List.find? (fun p => p.1 == name) row with _ | p
    · exact h
    · rw [h] at habs; exact absurd habs (by simp)
  have happ : rowGet? (row ++ [(name, Value.null)]) name = some .null := by
    unfold rowGet?
    rw [List.find?_append, hfind]
    simp
  refine ⟨?_, happ, ?_, evalIdent_total⟩
  · unfold evalIdent
    rw [hrow]
    dsimp only
    rw [habs]
  · intro s2 h2
    unfold evalIdent
    rw [h2]
    dsimp only
    rw [happ]

/-- Concrete instance of C7: reading `bp` from the row `[("hr", 5)]`
creates `bp = null` and a second read is stable. -/
theorem C7_absent_read_creates_null_witness :
    evalIdent "bp" 0 { rows := [[("hr", Value.num 5)]], cache := [], scans := 0 } =
      (.ok .null,
        { rows := [[("hr", Value.num 5), ("bp", Value.null)]], cache := [], scans := 0 }) ∧
    rowGet? [("hr", Value.num 5), ("bp", Value.null)] "bp" = some .null ∧
    evalIdent "bp" 0
        { rows := [[("hr", Value.num 5), ("bp", Value.null)]], cache := [], scans := 0 } =
      (.ok .null,
        { rows := [[("hr", Value.num 5), ("bp", Value.null)]], cache := [], scans := 0 }) := by
  have h := C7_absent_read_creates_null "bp" 0
    { rows := [[("hr", Value.num 5)]], cache := [], scans := 0 }
    [("hr", Value.num 5)] rfl rfl
  exact ⟨h.1, h.2.1, h.2.2.1 _ rfl⟩

/-! ### Claim C3 -/

theorem condLoop_step (f : Nat) (node : Cond) (s s1 : PState) (t : Token) (r : Cond)
    (ht : curTok s = some t) (hop : t.type = .AND ∨ t.type = .OR)
    (hp : parseExpression f (advanceP s) = .ok (r, s1)) :
    condLoop (f + 1) node s =
      condLoop f (if t.type = .AND then .and node r else .or node r) s1 := by
  simp only [condLoop]
  rw [ht]
  dsimp only
  rw [if_pos hop, hp]

theorem condLoop_stop (f : Nat) (node : Cond) (s : PState) (t : Token)
    (ht : curTok s = some t) (hop : ¬(t.type = .AND ∨ t.type = .OR)) :
    condLoop (f + 1) node s = .ok (node, s) := by
  simp only [condLoop]
  rw [ht]
  dsimp only
  rw [if_neg hop]

/-- C3: `parse_condition` combines AND and OR in one shared left-associative
loop with no precedence between them — after parsing expressions A, B, C,
`A AND B OR C` yields `(A AND B) OR C` and `A OR B AND C` yields
`(A OR B) AND C`; `NOT` binds tighter (it attaches to the following atom
inside `parse_expression`), and a parenthesized group is parsed as one atom,
overriding the shared loop. -/
theorem C3_shared_and_or_loop
    (g : Nat) (s s1 s2 s3 : PState) (e1 e2 e3 : Cond) (tA tO t3 : Token)
    (u u1 u2 u3 : PState) (d1 d2 d3 : Cond) (uO uA ut3 : Token)
    (f1 : Nat) (p p1 : PState) (tN : Token) (a : Cond)
    (f2 : Nat) (q q1 : PState) (tL tR : Token) (c : Cond)
    (h1 : parseExpression (g + 3) s = .ok (e1, s1))
    (hA : curTok s1 = some tA) (hAt : tA.type = .AND)
    (h2 : parseExpression (g + 2) (advanceP s1) = .ok (e2, s2))
    (hO : curTok s2 = some tO) (hOt : tO.type = .OR)
    (h3 : parseExpression (g + 1) (advanceP s2) = .ok (e3, s3))
    (h4 : curTok s3 = some t3) (h4t : ¬(t3.type = .AND ∨ t3.type = .OR))
    (k1 : parseExpression (g + 3) u = .ok (d1, u1))
    (kO : curTok u1 = some uO) (kOt : uO.type = .OR)
    (k2 : parseExpression (g + 2) (advanceP u1) = .ok (d2, u2))
    (kA : curTok u2 = some uA) (kAt : uA.type = .AND)
    (k3 : parseExpression (g + 1) (advanceP u2) = .ok (d3, u3))
    (k4 : curTok u3 = some ut3) (k4t : ¬(ut3.type = .AND ∨ ut3.type = .OR))
    (hN : curTok p = some tN) (hNt : tN.type = .NOT)
    (hNa : parseAtom f1 (advanceP p) = .ok (a, p1))
    (hL : curTok q = some tL) (hLt : tL.type = .LPAREN)
    (hLc : parseCondition f2 (advanceP q) = .ok (c, q1))
    (hR : curTok q1 = some tR) (hRt : tR.type = .RPAREN) :
    parseCondition (g + 4) s = .ok (.or (.and e1 e2) e3, s3) ∧
    parseCondition (g + 4) u = .ok (.and (.or d1 d2) d3, u3) ∧
    parseExpression (f1 + 1) p = .ok (.not a, p1) ∧
    parseAtom (f2 + 1) q = .ok (c, advanceP q1) := by
  refine ⟨?_, ?_, ?_, ?_⟩
  · simp only [parseCondition]
    rw [h1]
    dsimp only
    rw [condLoop_step (g + 2) e1 s1 s2 tA e2 hA (Or.inl hAt) h2]
    rw [if_pos hAt]
    rw [condLoop_step (g + 1) (.and e1 e2) s2 s3 tO e3 hO (Or.inr hOt) h3]
    rw [if_neg (by simp [hOt])]
    rw [condLoop_stop g (.or (.and e1 e2) e3) s3 t3 h4 h4t]
  · simp only [parseCondition]
    rw [k1]
    dsimp only
    rw [condLoop_step (g + 2) d1 u1 u2 uO d2 kO (Or.inr kOt) k2]
    rw [if_neg (by simp [kOt])]
    rw [condLoop_step (g + 1) (.or d1 d2) u2 u3 uA d3 kA (Or.inl kAt) k3]
    rw [if_pos kAt]
    rw [condLoop_stop g (.and (.or d1 d2) d3) u3 ut3 k4 k4t]
  · simp only [parseExpression]
    rw [hN]
    dsimp only
    simp only [hNt]
    rw [if_pos (by simp)]
    rw [hNa]
  · simp only [parseAtom]
    rw [hL]
    dsimp only
    simp only [hLt]
    rw [if_pos (by simp)]
    rw [hLc]
    dsimp only
    simp only [consume]
    rw [hR]
    dsimp only
    simp only [hRt]
    rw [if_pos (by simp)]

/-- Concrete instance of C3 on the IS NULL atoms A = `'a' IS NULL`,
B = `'b' IS NULL`, C = `'c' IS NULL`: `A AND B OR C` parses to
`(A AND B) OR C`, `A OR B AND C` to `(A OR B) AND C`, `NOT A` attaches the
NOT to the atom, and `(A)` parses as one atom. -/
theorem C3_shared_and_or_loop_witness :
    parseCondition 5 ⟨c3TokensA, 0, 0⟩ =
      .ok (.or (.and (.isNull "a" false) (.isNull "b" false)) (.isNull "c" false),
        ⟨c3TokensA, 11, 0⟩) ∧
    parseCondition 5 ⟨c3TokensB, 0, 0⟩ =
      .ok (.and (.or (.isNull "a" false) (.isNull "b" false)) (.isNull "c" false),
        ⟨c3TokensB, 11, 0⟩) ∧
    parseExpression 5 ⟨c3TokensN, 0, 0⟩ =
      .ok (.not (.isNull "a" false), ⟨c3TokensN, 4, 0⟩) ∧
    parseAtom 5 ⟨c3TokensP, 0, 0⟩ =
      .ok (.isNull "a" false, advanceP ⟨c3TokensP, 4, 0⟩) :=
  C3_shared_and_or_loop 1
    ⟨c3TokensA, 0, 0⟩ ⟨c3TokensA, 3, 0⟩ ⟨c3TokensA, 7, 0⟩ ⟨c3TokensA, 11, 0⟩
    (.isNull "a" false) (.isNull "b" false) (.isNull "c" false)
    (tok .AND .none) (tok .OR .none) (tok .EOF .none)
    ⟨c3TokensB, 0, 0⟩ ⟨c3TokensB, 3, 0⟩ ⟨c3TokensB, 7, 0⟩ ⟨c3TokensB, 11, 0⟩
    (.isNull "a" false) (.isNull "b" false) (.isNull "c" false)
    (tok .OR .none) (tok .AND .none) (tok .EOF .none)
    4 ⟨c3TokensN, 0, 0⟩ ⟨c3TokensN, 4, 0⟩ (tok .NOT .none) (.isNull "a" false)
    4 ⟨c3TokensP, 0, 0⟩ ⟨c3TokensP, 4, 0⟩ (tok .LPAREN .none) (tok .RPAREN .none)
    (.isNull "a" false)
    rfl rfl rfl rfl rfl rfl rfl rfl (by decide)
    rfl rfl rfl rfl rfl rfl rfl rfl (by decide)
    rfl rfl rfl
    rfl rfl rfl rfl rfl

/-! ### Claim C6 -/

/-- C6: in a top-level rule's action loop a SET followed by two or more
newlines and an IF ends the action list (the IF is left for the next
top-level rule), and this is the sole delimiting mechanism — without the
blank line (or without a following IF) the loop just continues, so a
following IF is consumed as a nested action; a nested rule's loop never
applies the heuristic: after a SET it always continues, and it always
consumes a following IF as a nested action, blank lines notwithstanding. -/
theorem C6_blank_line_rule_boundary
    (f : Nat) (s s1 s2 : PState) (acc : List Action) (a : Action) (n : Nat)
    (tS : Token) (r : Rule) (u u1 u2 : PState) (acc2 : List Action) (m : Nat)
    (tI : Token)
    (hcs : curTok s = some tS) (hst : tS.type = .SET)
    (hact : parseAction f s = .ok (a, s1))
    (hnl : skipNL s1 = .ok (n, s2))
    (hcu : curTok u = some tI) (hit : tI.type = .IF)
    (hrule : parseRule f true u = .ok (r, u1))
    (hnl2 : skipNL u1 = .ok (m, u2)) :
    (1 < n → curTokType s2 = some .IF →
      actionLoop (f + 1) false acc s = .ok (acc ++ [a], s2)) ∧
    (¬(1 < n ∧ curTokType s2 = some .IF) →
      actionLoop (f + 1) false acc s = actionLoop f false (acc ++ [a]) s2) ∧
    (actionLoop (f + 1) true acc s = actionLoop f true (acc ++ [a]) s2) ∧
    (actionLoop (f + 1) true acc2 u = actionLoop f true (acc2 ++ [.nested r]) u2) := by
  have base : ∀ (isN : Bool) (ac : List Action),
      actionLoop (f + 1) isN ac s =
        (if isN = false ∧ 1 < n ∧ curTokType s2 = some .IF then
          .ok (ac ++ [a], s2)
        else actionLoop f isN (ac ++ [a]) s2) := by
    intro isN ac
    simp only [actionLoop]
    rw [hcs]
    dsimp only
    simp only [hst]
    rw [if_pos (by simp)]
    rw [hact]
    dsimp only
    rw [hnl]
  have baseIf : ∀ (isN : Bool) (ac : List Action),
      actionLoop (f + 1) isN ac u =
        (if isN = false ∧ 1 < m ∧ curTokType u2 = some .IF then
          .ok (ac ++ [.nested r], u2)
        else actionLoop f isN (ac ++ [.nested r]) u2) := by
    intro isN ac
    simp only [actionLoop]
    rw [hcu]
    dsimp only
    simp only [hit]
    rw [if_neg (by simp)]
    rw [if_pos (by simp)]
    rw [hrule]
    dsimp only
    rw [hnl2]
  refine ⟨?_, ?_, ?_, ?_⟩
  · intro hn hif
    rw [base false acc, if_pos ⟨rfl, hn, hif⟩]
  · intro hneg
    rw [base false acc, if_neg (by simpa using hneg)]
  · rw [base true acc, if_neg (by simp)]
  · rw [baseIf true acc2, if_neg (by simp)]

/-- Concrete instance of C6: from the SET position of
`... SET 'x' = 1 <blank line> IF ...`, the top-level loop stops before the
IF while the nested loop swallows it as a nested rule; at whole-script level
the blank line yields two top-level rules while a single newline yields one
rule with a nested IF. -/
theorem C6_blank_line_rule_boundary_witness :
    (1 < 2 → curTokType ⟨c6TokensSet, 6, 0⟩ = some .IF →
      actionLoop 17 false [] ⟨c6TokensSet, 0, 0⟩ =
        .ok ([Action.set "x" (.lit (.num 1))], ⟨c6TokensSet, 6, 0⟩)) ∧
    (¬(1 < 2 ∧ curTokType ⟨c6TokensSet, 6, 0⟩ = some .IF) →
      actionLoop 17 false [] ⟨c6TokensSet, 0, 0⟩ =
        actionLoop 16 false ([] ++ [Action.set "x" (.lit (.num 1))])
          ⟨c6TokensSet, 6, 0⟩) ∧
    (actionLoop 17 true [] ⟨c6TokensSet, 0, 0⟩ =
      actionLoop 16 true ([] ++ [Action.set "x" (.lit (.num 1))])
        ⟨c6TokensSet, 6, 0⟩) ∧
    (actionLoop 17 true [] ⟨c6TokensSet, 6, 0⟩ =
      actionLoop 16 true
        ([] ++ [Action.nested
          (.mk (.isNull "b" false) [.set "y" (.lit (.num 2))] none)])
        ⟨c6TokensSet, 15, 0⟩) ∧
    parseScript 64 c6TokensTwo =
      .ok [.mk (.isNull "a" false) [.set "x" (.lit (.num 1))] none,
           .mk (.isNull "b" false) [.set "y" (.lit (.num 2))] none] ∧
    parseScript 64 c6TokensOne =
      .ok [.mk (.isNull "a" false)
            [.set "x" (.lit (.num 1)),
             .nested (.mk (.isNull "b" false) [.set "y" (.lit (.num 2))] none)]
            none] :=
  by
  have h := C6_blank_line_rule_boundary 16 ⟨c6TokensSet, 0, 0⟩ ⟨c6TokensSet, 4, 0⟩
    ⟨c6TokensSet, 6, 0⟩ [] (Action.set "x" (.lit (.num 1))) 2
    (tok .SET .none)
    (.mk (.isNull "b" false) [.set "y" (.lit (.num 2))] none)
    ⟨c6TokensSet, 6, 0⟩ ⟨c6TokensSet, 15, 0⟩ ⟨c6TokensSet, 15, 0⟩ [] 0
    (tok .IF .none)
    rfl rfl rfl rfl rfl rfl rfl rfl
  exact ⟨h.1, h.2.1, h.2.2.1, h.2.2.2, rfl, rfl⟩

/-! ### Claim C8 -/

/-- C8 counterexample: the parser rejects a comparison whose right-hand side
is the literal NULL — `'x' == NULL` fails in `parse_atom` with the
ParserError "Expected Number, String, Boolean, or Identifier after
operator", both as a bare atom and inside a full rule. -/
theorem C8_null_rhs_counterexample :
    parseAtom 8
        ⟨[tok .IDENTIFIER (.str "x"), tok .EQ (.str "=="), tok .NULL (.str "NULL"),
          tok .EOF .none], 0, 0⟩ =
      .error .expectedValueAfterOp ∧
    parseScript 64
        [tok .IF (.str "IF"), tok .IDENTIFIER (.str "x"), tok .EQ (.str "=="),
         tok .NULL (.str "NULL"), tok .THEN (.str "THEN"), tok .SET (.str "SET"),
         tok .IDENTIFIER (.str "y"), tok .ASSIGN (.str "="),
         tok .NUMBER (.num 1), tok .EOF .none] =
      .error .expectedValueAfterOp :=
  ⟨rfl, rfl⟩

/-- C8 (amended): the right-hand side of a comparison may be an identifier
or a number, string or boolean literal — each is accepted by `parse_atom` —
but the literal NULL is not among the accepted right-hand sides: a
comparison against NULL is rejected with a ParserError (nullness is tested
with IS NULL instead). -/
theorem C8_comparison_rhs_amended :
    parseAtom 8
        ⟨[tok .IDENTIFIER (.str "x"), tok .GT (.str ">"), tok .NUMBER (.num 5),
          tok .EOF .none], 0, 0⟩ =
      .ok (.cmp "x" .gt (.value (.num 5)),
        ⟨[tok .IDENTIFIER (.str "x"), tok .GT (.str ">"), tok .NUMBER (.num 5),
          tok .EOF .none], 3, 0⟩) ∧
    parseAtom 8
        ⟨[tok .IDENTIFIER (.str "x"), tok .EQ (.str "=="), tok .STRING (.str "hi"),
          tok .EOF .none], 0, 0⟩ =
      .ok (.cmp "x" .eq (.value (.str "hi")),
        ⟨[tok .IDENTIFIER (.str "x"), tok .EQ (.str "=="), tok .STRING (.str "hi"),
          tok .EOF .none], 3, 0⟩) ∧
    parseAtom 8
        ⟨[tok .IDENTIFIER (.str "x"), tok .NEQ (.str "!="), tok .BOOLEAN (.bool true),
          tok .EOF .none], 0, 0⟩ =
      .ok (.cmp "x" .neq (.value (.bool true)),
        ⟨[tok .IDENTIFIER (.str "x"), tok .NEQ (.str "!="), tok .BOOLEAN (.bool true),
          tok .EOF .none], 3, 0⟩) ∧
    parseAtom 8
        ⟨[tok .IDENTIFIER (.str "x"), tok .LT (.str "<"), tok .IDENTIFIER (.str "y"),
          tok .EOF .none], 0, 0⟩ =
      .ok (.cmp "x" .lt (.ident "y"),
        ⟨[tok .IDENTIFIER (.str "x"), tok .LT (.str "<"), tok .IDENTIFIER (.str "y"),
          tok .EOF .none], 3, 0⟩) ∧
    parseAtom 8
        ⟨[tok .IDENTIFIER (.str "x"), tok .EQ (.str "=="), tok .NULL (.str "NULL"),
          tok .EOF .none], 0, 0⟩ =
      .error .expectedValueAfterOp :=
  ⟨rfl, rfl, rfl, rfl, rfl⟩

/-! ### Claim C9 -/

set_option maxHeartbeats 2000000 in
/-- C9 counterexample: the spec's worked example
`IF 'hr' > 100 THEN SET flag = true` does not run at all — the unquoted
`flag` is a lex error (column names must be quoted), so the pipeline fails
with `LexerError: Invalid or unquoted identifier: 'flag'` instead of
succeeding with `{hr: null, flag: null}`. -/
theorem C9_pipeline_counterexample :
    runPipeline c9ScriptA [[("hr", Value.null)]] =
      .error (.invalidIdent "flag" 1 24) :=
  rfl

set_option maxHeartbeats 2000000 in
/-- C9 (amended): the exact script of the example fails at lexing on the
unquoted `flag`; with the SET target quoted —
`IF 'hr' > 100 THEN SET 'flag' = true` — the pipeline succeeds and leaves
the row `{hr: null}` unchanged, with no warnings: the false condition skips
the SET, and since `flag` is never read it is never created, so no
`flag: null` field appears. -/
theorem C9_pipeline_amended :
    tokenize c9ScriptA = .error (.invalidIdent "flag" 1 24) ∧
    runPipeline c9ScriptB [[("hr", Value.null)]] =
      .ok (.ok ([[("hr", Value.null)]], [])) ∧
    rowGet? [("hr", Value.null)] "flag" = none := by
  refine ⟨rfl, ?_, rfl⟩
  have hv : visitRule
      (.mk (.cmp "hr" .gt (.value (.num 100))) [.set "flag" (.lit (.bool true))] none)
      0 (ExecState.mk [[("hr", Value.null)]] [] 0) =
      (.ok true, ExecState.mk [[("hr", Value.null)]] [] 0) := by
    rw [visitRule.eq_def]; rfl
  have hrr : runRuleRows
      (.mk (.cmp "hr" .gt (.value (.num 100))) [.set "flag" (.lit (.bool true))] none)
      [0] (ExecState.mk [[("hr", Value.null)]] [] 0) =
      ([], ExecState.mk [[("hr", Value.null)]] [] 0) := by
    simp only [runRuleRows]
    rw [hv]
  have h1 : runPipeline c9ScriptB [[("hr", Value.null)]] =
      .ok (.ok (execute
        [.mk (.cmp "hr" .gt (.value (.num 100))) [.set "flag" (.lit (.bool true))] none]
        [[("hr", Value.null)]])) := rfl
  have h2 : execute
      [.mk (.cmp "hr" .gt (.value (.num 100))) [.set "flag" (.lit (.bool true))] none]
      [[("hr", Value.null)]] = ([[("hr", Value.null)]], []) := by
    simp only [execute, execScript]
    rw [show List.range
        (ExecState.mk [[("hr", Value.null)]] ([] : List (Nat × Nat)) 0).rows.length =
      [0] from rfl]
    rw [show ({ ExecState.mk [[("hr", Value.null)]] ([] : List (Nat × Nat)) 0 with
        cache := [] } : ExecState) =
      ExecState.mk [[("hr", Value.null)]] ([] : List (Nat × Nat)) 0 from rfl]
    rw [hrr]
    rfl
  rw [h1, h2]

end Triage
